import Mathlib

/-!
Verification of the conversation engine of the Kids_Story-Teller repository.

The development shallowly embeds the Python sources:
  `app/core/session_manager.py`  (SessionData, InMemorySessionManager, RedisSessionManager)
  `app/core/safety_filter.py`    (MoralValuesFilter, EducationalFilter, FunOnlyFilter,
                                  SafetyFilterManager)
  `app/services/story_service.py` (StoryService)
  `app/services/tutor_service.py` (TutorService)

Modelling conventions:
  * `datetime.utcnow()` is modelled by an explicit `now : Nat` parameter; every call to
    `utcnow()` inside one request observes the same instant.  `timedelta(minutes=t)` and
    timestamps share the same abstract unit.
  * Python dicts keyed by strings are association lists with the usual dict operations
    (replace-in-place on existing key, append on fresh key); a dict invariant of
    pairwise-distinct keys is carried as a hypothesis where it matters.
  * `async` methods are pure state-passing functions; exceptions (`raise ValueError`)
    become `Except String` with the raised message.
  * The LLM backend (`llm_client.generate`) is an oracle parameter
    `gens : Nat → List Message → String`: the k-th generate call of a request, handed the
    message list of that call, returns `gens k msgs`.  Each service function also returns
    the number of generate calls it performed, an observation that is in one-to-one
    correspondence with the `generate` call sites executed.
  * In CPython a `str`-mixin enum member is interchangeable with its value string as a
    dict key and in `==` (equal hash and equality), so the places where the source passes
    the `ContentFilter` enum member instead of `.value` to the filter manager behave
    exactly as if the value string were passed; the embedding uses the value string.
-/

/-! ## String helpers mirroring the Python primitives used by the sources -/

/-- Python `str.lower()` restricted to the character-wise case mapping used by every
keyword in the sources (ASCII). -/
def strLower (s : String) : String := ⟨s.toList.map Char.toLower⟩

/-- Prefix test on character lists: does `n` start `h`. -/
def listIsPre : List Char → List Char → Bool
  | [], _ => true
  | _ :: _, [] => false
  | a :: as, b :: bs => a = b && listIsPre as bs

/-- Occurrence of `n` as a contiguous sublist of `h` (Python `n in h` on strings). -/
def listSub (n : List Char) : List Char → Bool
  | [] => n.isEmpty
  | a :: t => listIsPre n (a :: t) || listSub n t

/-- Python substring containment `needle in hay`. -/
def strContains (hay needle : String) : Bool := listSub needle.toList hay.toList

/-- Count of maximal whitespace-free runs; the flag records whether the scanner stands
inside such a run. -/
def wordCountAux : Bool → List Char → Nat
  | _, [] => 0
  | inWord, c :: cs =>
    if c.isWhitespace then wordCountAux false cs
    else (if inWord then 0 else 1) + wordCountAux true cs

/-- Python `len(s.split())`: `str.split()` with no separator yields the maximal
whitespace-free runs, so the word count is the number of such runs. -/
def wordCount (s : String) : Nat := wordCountAux false s.toList

/-! ## Data model (`session_manager.py`) -/

/-- A conversation turn (`llm_client.Message`). -/
structure Message where
  role : String
  content : String
deriving DecidableEq, Repr

/-- Session modes (`prompt_manager.SessionMode`). -/
inductive SessionMode
  | story
  | tutor
deriving DecidableEq, Repr

/-- The session `config` dict.  Creation populates `content_filter` and
`max_story_length`; the services may later add `age_group`, `preferred_subject` and
`story_style`; tutor `additional_settings` land in `extra` (string-valued entries; the
typed keys above are overridden when the same literal key is supplied). -/
structure SessionConfig where
  content_filter : String
  max_story_length : Nat
  age_group : Option String := none
  preferred_subject : Option String := none
  story_style : Option String := none
  extra : List (String × String) := []
deriving DecidableEq, Repr

/-- `SessionData` of `session_manager.py` (the unused `metadata` dict is omitted: no
modelled operation reads or writes it). -/
structure SessionData where
  session_id : String
  mode : SessionMode
  created_at : Nat
  last_accessed : Nat
  messages : List Message
  config : SessionConfig
deriving DecidableEq, Repr

/-- `SessionData.__init__`: fresh session at time `now` with the process-default config. -/
def SessionData.mk' (default_filter : String) (default_max : Nat)
    (sid : String) (mode : SessionMode) (now : Nat) : SessionData :=
  { session_id := sid, mode := mode, created_at := now, last_accessed := now,
    messages := [],
    config := { content_filter := default_filter, max_story_length := default_max } }

/-- `SessionData.add_message`: append a turn and refresh `last_accessed`. -/
def addMessage (now : Nat) (s : SessionData) (role content : String) : SessionData :=
  { s with messages := s.messages ++ [{ role := role, content := content }],
           last_accessed := now }

/-- `SessionData.is_expired`: strictly past `last_accessed + timeout`. -/
def isExpired (timeout now : Nat) (s : SessionData) : Bool := now > s.last_accessed + timeout

/-! ## In-memory backend (`InMemorySessionManager`) -/

/-- The `sessions` dict of the in-memory manager. -/
abbrev MemStore := List (String × SessionData)

/-- Dict read `d.get(k)`. -/
def storeLookup (st : MemStore) (k : String) : Option SessionData :=
  (st.find? (fun p => p.1 = k)).map (fun p => p.2)

/-- Dict write `d[k] = v`: replace in place when the key exists, append otherwise. -/
def storeInsert (st : MemStore) (k : String) (v : SessionData) : MemStore :=
  if (st.find? (fun p => p.1 = k)).isSome then
    st.map (fun p => if p.1 = k then (k, v) else p)
  else st ++ [(k, v)]

/-- Dict delete `del d[k]`. -/
def storeErase (st : MemStore) (k : String) : MemStore :=
  st.filter (fun p => ¬ (p.1 = k))

/-- `InMemorySessionManager.create_session` (the fresh uuid is a parameter). -/
def memCreateSession (default_filter : String) (default_max : Nat)
    (st : MemStore) (now : Nat) (sid : String) (mode : SessionMode) : MemStore :=
  storeInsert st sid (SessionData.mk' default_filter default_max sid mode now)

/-- `InMemorySessionManager.get_session`: expired entries are deleted and reported
absent; a live entry is returned with `last_accessed` refreshed in place (the dict holds
the same mutated object). -/
def memGetSession (timeout : Nat) (st : MemStore) (now : Nat) (sid : String) :
    Option SessionData × MemStore :=
  match storeLookup st sid with
  | none => (none, st)
  | some s =>
    if isExpired timeout now s then
      (none, storeErase st sid)
    else
      let s' := { s with last_accessed := now }
      (some s', storeInsert st sid s')

/-- `InMemorySessionManager.update_session`: replace only an existing id. -/
def memUpdateSession (st : MemStore) (s : SessionData) : Bool × MemStore :=
  if (storeLookup st s.session_id).isSome then
    (true, storeInsert st s.session_id s)
  else (false, st)

/-- `InMemorySessionManager.delete_session`. -/
def memDeleteSession (st : MemStore) (sid : String) : Bool × MemStore :=
  if (storeLookup st sid).isSome then (true, storeErase st sid) else (false, st)

/-- `InMemorySessionManager.cleanup_expired_sessions`: collect the expired ids, delete
each, return how many ids were collected. -/
def memCleanup (timeout : Nat) (st : MemStore) (now : Nat) : Nat × MemStore :=
  let expired := (st.filter (fun p => isExpired timeout now p.2)).map (fun p => p.1)
  (expired.length, expired.foldl (fun acc sid => (memDeleteSession acc sid).2) st)

/-! ## Redis backend (`RedisSessionManager`)

A Redis key holds the JSON serialisation of the session (`to_dict`/`from_dict`
round-trips every field the engine reads, so the value is modelled as the session
itself) together with its native expiry deadline; `setex key (minutes=t) v` stores `v`
with deadline `now + t`, and a key is visible to `get`/`exists` exactly while the
deadline lies in the future. -/

abbrev RedisStore := List (String × (SessionData × Nat))

/-- Raw keyed read honouring native expiry. -/
def redisRawGet (st : RedisStore) (now : Nat) (sid : String) : Option SessionData :=
  match (st.find? (fun p => p.1 = sid)).map (fun p => p.2) with
  | none => none
  | some (s, deadline) => if now < deadline then some s else none

/-- Keyed write with a fresh deadline (`setex`). -/
def redisSetex (timeout : Nat) (st : RedisStore) (now : Nat) (sid : String)
    (s : SessionData) : RedisStore :=
  if ((st.find? (fun p => p.1 = sid)).map (fun p => p.2)).isSome then
    st.map (fun p => if p.1 = sid then (sid, (s, now + timeout)) else p)
  else st ++ [(sid, (s, now + timeout))]

/-- `RedisSessionManager.update_session`: `exists` guard, then `setex` with a full TTL. -/
def redisUpdateSession (timeout : Nat) (st : RedisStore) (now : Nat) (s : SessionData) :
    Bool × RedisStore :=
  if (redisRawGet st now s.session_id).isSome then
    (true, redisSetex timeout st now s.session_id s)
  else (false, st)

/-- `RedisSessionManager.get_session`: deserialise, refresh `last_accessed`, persist via
`update_session` (which resets the TTL), return the refreshed session. -/
def redisGetSession (timeout : Nat) (st : RedisStore) (now : Nat) (sid : String) :
    Option SessionData × RedisStore :=
  match redisRawGet st now sid with
  | none => (none, st)
  | some s =>
    let s' := { s with last_accessed := now }
    (some s', (redisUpdateSession timeout st now s').2)

/-- `RedisSessionManager.cleanup_expired_sessions`: native expiry owns removal, the
method is a literal `return 0`. -/
def redisCleanup (st : RedisStore) : Nat × RedisStore := (0, st)

/-! ## Content filters (`safety_filter.py`)

`MoralValuesFilter.apply` substitutes, for each table entry in order, every
case-insensitive whole-word occurrence (`re.sub(r'\b w \b', repl, s, re.IGNORECASE)`).
Each listed word consists solely of word characters, so a regex match is exactly a
maximal word-character run whose lowercasing equals the word.  The substitution is
embedded as a scanner that accumulates the current word-character run and flushes it —
replaced when it matches — at each non-word character and at the end of input.  Word
characters follow `\w` on the ASCII alphabet of the sources. -/

/-- Python regex `\w` (ASCII range, the alphabet of every table entry). -/
def isWordChar (c : Char) : Bool := c.isAlphanum || c = '_'

/-- Emit one maximal word run: the replacement if the run matches the word
case-insensitively, the run itself otherwise. -/
def flushRun (w r run : List Char) : List Char :=
  if run.map Char.toLower = w then r else run

/-- Scanner for one `re.sub(r'\b...\b', ..., flags=IGNORECASE)` pass: `run` is the
word-character run read so far. -/
def replWordAux (w r : List Char) : List Char → List Char → List Char
  | run, [] => flushRun w r run
  | run, c :: cs =>
    if isWordChar c then replWordAux w r (run ++ [c]) cs
    else flushRun w r run ++ c :: replWordAux w r [] cs

/-- One whole-word case-insensitive substitution pass over a string. -/
def replaceWholeWord (w r : String) (s : String) : String :=
  ⟨replWordAux w.toList r.toList [] s.toList⟩

namespace MoralValuesFilter

/-- `MoralValuesFilter.negative_keywords`. -/
def negative_keywords : List String :=
  ["violence", "fight", "hurt", "kill", "death", "scary",
   "nightmare", "evil", "hate", "steal", "lie", "cheat",
   "bully", "mean", "cruel", "weapon", "blood"]

/-- `MoralValuesFilter.positive_themes`. -/
def positive_themes : List String :=
  ["kindness", "friendship", "helping", "sharing", "honesty",
   "courage", "respect", "love", "teamwork", "gratitude",
   "forgiveness", "patience", "responsibility"]

/-- The `replacements` table of `MoralValuesFilter.apply`, in dict insertion order. -/
def replacements : List (String × String) :=
  [("fight", "disagreement"), ("hurt", "upset"), ("scary", "surprising"),
   ("evil", "unkind"), ("hate", "dislike"), ("steal", "borrow without asking"),
   ("lie", "not tell the truth"), ("mean", "unkind"), ("cruel", "not nice")]

/-- `MoralValuesFilter.apply`: the substitution passes in table order. -/
def apply (content : String) : String :=
  replacements.foldl (fun acc p => replaceWholeWord p.1 p.2 acc) content

/-- `MoralValuesFilter.validate`. -/
def validate (content : String) : Bool × Option String :=
  let content_lower := strLower content
  let found_negative := negative_keywords.filter (fun w => strContains content_lower w)
  if found_negative.isEmpty then
    let found_positive := positive_themes.filter (fun t => strContains content_lower t)
    if found_positive.isEmpty then
      (false, some "Story should include positive themes like kindness, friendship, or helping others")
    else (true, none)
  else
    (false, some ("Content contains inappropriate words: " ++
      String.intercalate ", " found_negative))

end MoralValuesFilter

namespace EducationalFilter

/-- `EducationalFilter.educational_elements`. -/
def educational_elements : List String :=
  ["learn", "discover", "explore", "understand", "practice",
   "count", "spell", "science", "nature", "history",
   "geography", "math", "reading", "writing", "curiosity",
   "question", "answer", "think", "solve", "create"]

/-- `EducationalFilter.educational_topics`. -/
def educational_topics : List String :=
  ["numbers", "letters", "colors", "shapes", "animals",
   "plants", "weather", "seasons", "countries", "cultures",
   "space", "ocean", "environment", "recycling", "health"]

/-- `EducationalFilter.apply` is the identity. -/
def apply (content : String) : String := content

/-- `EducationalFilter.validate`. -/
def validate (content : String) : Bool × Option String :=
  let content_lower := strLower content
  let found_elements := educational_elements.filter (fun e => strContains content_lower e)
  let found_topics := educational_topics.filter (fun t => strContains content_lower t)
  if found_elements.isEmpty ∧ found_topics.isEmpty then
    (false, some "Story should include educational elements or teach something valuable")
  else (true, none)

end EducationalFilter

namespace FunOnlyFilter

/-- `FunOnlyFilter.fun_elements`. -/
def fun_elements : List String :=
  ["laugh", "giggle", "funny", "silly", "play", "game",
   "adventure", "magic", "surprise", "dance", "sing",
   "joke", "tickle", "bounce", "jump", "celebrate",
   "party", "fun", "exciting", "amazing", "wonderful"]

/-- `FunOnlyFilter.serious_topics`. -/
def serious_topics : List String :=
  ["lesson", "moral", "learn", "study", "homework",
   "serious", "important", "consequence", "responsibility"]

/-- `FunOnlyFilter.apply`: `content.replace("!", "!!!")` — the needle is one character,
so each `!` becomes `!!!`. -/
def apply (content : String) : String :=
  ⟨(content.toList.map (fun c => if c = '!' then ['!', '!', '!'] else [c])).flatten⟩

/-- `FunOnlyFilter.validate`. -/
def validate (content : String) : Bool × Option String :=
  let content_lower := strLower content
  let found_fun := fun_elements.filter (fun e => strContains content_lower e)
  if found_fun.length < 2 then
    (false, some "Story needs more fun, silly, or exciting elements!")
  else
    let found_serious := serious_topics.filter (fun t => strContains content_lower t)
    if found_serious.length > 2 then
      (false, some "Story is too serious - make it more fun and playful!")
    else if content.toList.count '!' < 3 then
      (false, some "Story needs more excitement and energy!")
    else (true, none)

end FunOnlyFilter

/-! ## `SafetyFilterManager`

The manager's `filters` dict is the closed three-entry registry; `enabled` captures
`settings.safety_filters_enabled` at construction and is a parameter here. -/

/-- The registry keys, as a closed dispatch type. -/
inductive FilterKind
  | moral_values
  | educational
  | fun_only
deriving DecidableEq, Repr

/-- `SafetyFilterManager.get_filter`: dict lookup in the three-entry registry. -/
def getFilter (filter_type : String) : Option FilterKind :=
  if filter_type = "moral_values" then some .moral_values
  else if filter_type = "educational" then some .educational
  else if filter_type = "fun_only" then some .fun_only
  else none

/-- Dispatch of `.apply` through the registry. -/
def filterApply : FilterKind → String → String
  | .moral_values, c => MoralValuesFilter.apply c
  | .educational, c => EducationalFilter.apply c
  | .fun_only, c => FunOnlyFilter.apply c

/-- Dispatch of `.validate` through the registry. -/
def filterValidate : FilterKind → String → Bool × Option String
  | .moral_values, c => MoralValuesFilter.validate c
  | .educational, c => EducationalFilter.validate c
  | .fun_only, c => FunOnlyFilter.validate c

/-- `SafetyFilterManager.apply_filter`. -/
def applyFilter (enabled : Bool) (content : String) (filter_type : String) : String :=
  if ¬ enabled then content
  else
    match getFilter filter_type with
    | some fk => filterApply fk content
    | none => content

/-- `SafetyFilterManager.validate_content`. -/
def validateContent (enabled : Bool) (content : String) (filter_type : String) :
    Bool × Option String :=
  if ¬ enabled then (true, none)
  else
    match getFilter filter_type with
    | some fk => filterValidate fk content
    | none => (true, none)

/-! ## Service layer (`story_service.py`, `tutor_service.py`)

The services consume the in-memory session backend; the prompt loader
(`prompt_manager.get_system_prompt`, file-backed) is an oracle parameter `promptFor`.
Generation is the oracle `gens` described in the header.  Each operation returns the
outward result (`Except` carrying the raised `ValueError` message on failure), the
resulting store, and the number of generate calls performed. -/

/-- The process settings consumed by the modelled operations (`config.Settings`). -/
structure Settings where
  session_timeout_minutes : Nat
  safety_filters_enabled : Bool
  default_content_filter : String
  max_story_length : Nat
deriving Repr

/-- Rendering of the `Optional[str]` validation message into an f-string (`None` when
absent, as Python would print). -/
def optMsg : Option String → String
  | some m => m
  | none => "None"

/-- The `ValueError` message of an invalid `ContentFilter(...)` conversion. -/
def filterValueError (v : String) : String :=
  v ++ " is not a valid ContentFilter"

/-- `StoryService._check_story_completion`: the fixed ending phrases. -/
def ending_indicators : List String :=
  ["the end", "happily ever after", "and that\x27s how",
   "from that day on", "and they all lived", "the moral of the story",
   "and so it was", "and that was that", "fin", "the end."]

/-- `StoryService._check_story_completion`: case-insensitive substring match. -/
def checkStoryCompletion (content : String) : Bool :=
  ending_indicators.any (fun ind => strContains (strLower content) ind)

/-- `StoryService._get_age_appropriate_prompt` (story variant). -/
def storyAgePrompt (age_group : Option String) : String :=
  let p35 := "Target age group: 3-5 years old. Use very simple language, short sentences, and basic vocabulary."
  let p68 := "Target age group: 6-8 years old. Use clear, simple language with some new vocabulary words."
  let p912 := "Target age group: 9-12 years old. Use richer vocabulary and more complex sentence structures."
  match age_group with
  | some "3-5" => p35
  | some "6-8" => p68
  | some "9-12" => p912
  | _ => p68

/-- `StoryService._get_length_prompt`. -/
def lengthPrompt (story_length : Option String) : String :=
  match story_length with
  | some "short" => "Keep the story brief (around 200-300 words per response)."
  | some "medium" => "Create a medium-length story (around 400-500 words per response)."
  | some "long" => "Create a longer, more detailed story (around 600-800 words per response)."
  | _ => "Create a medium-length story (around 400-500 words per response)."

/-- `StoryStartRequest` (pydantic keeps the `Literal` fields inside their ranges; the
model carries them as plain optional strings). -/
structure StoryStartRequest where
  prompt : String
  character_name : Option String := none
  age_group : Option String := none
  story_length : Option String := none
  content_filter : Option String := none
deriving DecidableEq, Repr

/-- `StoryService._create_initial_prompt`. -/
def createInitialPrompt (req : StoryStartRequest) : String :=
  match req.character_name with
  | some n => "Create a story about: " ++ req.prompt ++ " The main character\x27s name is " ++ n ++ "."
  | none => "Create a story about: " ++ req.prompt

/-- `StoryContinueRequest`. -/
structure StoryContinueRequest where
  session_id : String
  user_input : String
deriving DecidableEq, Repr

/-- `StoryResponse`. -/
structure StoryResponse where
  session_id : String
  story_content : String
  choices : Option (List String)
  is_complete : Bool
  word_count : Nat
  content_filter_applied : String
  message_count : Nat
deriving DecidableEq, Repr

/-- Cumulative word count of the assistant turns of a message list (the `total_words`
sum of `StoryService.continue_story`). -/
def assistantWordCount (msgs : List Message) : Nat :=
  (msgs.filter (fun m => m.role = "assistant")).foldl (fun acc m => acc + wordCount m.content) 0

/-- `StoryService.start_story`.  `newId` is the uuid allocated by `create_session`;
`promptFor` is the file-backed prompt lookup for story mode. -/
def startStory (S : Settings) (promptFor : FilterKind → String)
    (gens : Nat → List Message → String) (st : MemStore) (now : Nat) (newId : String)
    (req : StoryStartRequest) : Except String StoryResponse × MemStore × Nat :=
  let st₁ := memCreateSession S.default_content_filter S.max_story_length st now newId .story
  match memGetSession S.session_timeout_minutes st₁ now newId with
  | (none, st₂) => (.error "Failed to create session", st₂, 0)
  | (some session, st₂) =>
    let session :=
      match req.content_filter with
      | some f => { session with config := { session.config with content_filter := f } }
      | none => session
    match getFilter session.config.content_filter with
    | none => (.error (filterValueError session.config.content_filter), st₂, 0)
    | some fk =>
      let system_prompt := promptFor fk ++ "\n\n" ++ storyAgePrompt req.age_group
          ++ "\n\n" ++ lengthPrompt req.story_length
      let session := addMessage now session "system" system_prompt
      let session := addMessage now session "user" (createInitialPrompt req)
      let messages := session.messages
      let fv := session.config.content_filter
      let filtered₁ := applyFilter S.safety_filters_enabled (gens 0 messages) fv
      let v₁ := validateContent S.safety_filters_enabled filtered₁ fv
      let messages₂ := if v₁.1 then messages else messages ++
        [⟨"system", "Please ensure the story follows these guidelines: " ++ optMsg v₁.2⟩]
      let accepted := if v₁.1 then filtered₁
        else applyFilter S.safety_filters_enabled (gens 1 messages₂) fv
      let session := addMessage now { session with messages := messages₂ } "assistant" accepted
      let st₃ := (memUpdateSession st₂ session).2
      (.ok { session_id := newId, story_content := accepted, choices := none,
             is_complete := checkStoryCompletion accepted,
             word_count := wordCount accepted, content_filter_applied := fv,
             message_count := session.messages.length }, st₃, if v₁.1 then 1 else 2)

/-- `StoryService.continue_story`. -/
def continueStory (S : Settings) (gens : Nat → List Message → String) (st : MemStore)
    (now : Nat) (req : StoryContinueRequest) :
    Except String StoryResponse × MemStore × Nat :=
  match memGetSession S.session_timeout_minutes st now req.session_id with
  | (none, st₁) => (.error "Session not found or expired", st₁, 0)
  | (some session, st₁) =>
    let session := addMessage now session "user" req.user_input
    let total_words := assistantWordCount session.messages
    let session :=
      if total_words > session.config.max_story_length then
        addMessage now session "system"
          "Please bring the story to a satisfying conclusion in the next response."
      else session
    let messages := session.messages
    let r₁ := gens 0 messages
    match getFilter session.config.content_filter with
    | none => (.error (filterValueError session.config.content_filter), st₁, 1)
    | some _ =>
      let fv := session.config.content_filter
      let filtered₁ := applyFilter S.safety_filters_enabled r₁ fv
      let v₁ := validateContent S.safety_filters_enabled filtered₁ fv
      let messages₂ := if v₁.1 then messages else messages ++
        [⟨"system", "Please ensure the continuation follows these guidelines: " ++ optMsg v₁.2⟩]
      let accepted := if v₁.1 then filtered₁
        else applyFilter S.safety_filters_enabled (gens 1 messages₂) fv
      let session := addMessage now { session with messages := messages₂ } "assistant" accepted
      let st₂ := (memUpdateSession st₁ session).2
      (.ok { session_id := req.session_id, story_content := accepted, choices := none,
             is_complete := checkStoryCompletion accepted ||
               decide (total_words > session.config.max_story_length),
             word_count := wordCount accepted, content_filter_applied := fv,
             message_count := session.messages.length }, st₂, if v₁.1 then 1 else 2)

/-! ## Tutor service (`tutor_service.py`) -/

/-- `TutorService.subject_keywords`, in dict insertion order. -/
def subjectKeywords : List (String × List String) :=
  [("math", ["number", "count", "add", "subtract", "multiply", "divide", "plus",
             "minus", "equals", "math", "arithmetic", "geometry", "shapes"]),
   ("science", ["science", "experiment", "nature", "animal", "plant", "space",
                "earth", "weather", "body", "health", "chemistry", "physics"]),
   ("language", ["word", "letter", "read", "write", "spell", "grammar", "sentence",
                 "story", "book", "language", "alphabet"]),
   ("social_studies", ["history", "geography", "country", "culture", "community",
                       "family", "friend", "society", "world"]),
   ("art", ["draw", "paint", "color", "art", "music", "dance", "creative",
            "picture", "craft"]),
   ("general", ["how", "what", "why", "where", "when", "explain", "tell", "help"])]

/-- Keyword-hit count of one category against the lowercased question. -/
def subjScore (questionLower : String) (p : String × List String) : Nat :=
  (p.2.filter (fun kw => strContains questionLower kw)).length

/-- Python `max(scores, key=scores.get)` over the insertion-ordered dict of positive
scores: the first key attaining the maximal value.  `fallthrough` is unreachable (the
list is nonempty whenever this branch runs). -/
def pickTopSubject (scores : List (String × Nat)) : String :=
  let m := (scores.map (fun q => q.2)).foldl Nat.max 0
  match scores.find? (fun q => q.2 = m) with
  | some q => q.1
  | none => "general"

/-- The no-hint branch of `_detect_subject`: keep the categories with positive score
(`if score > 0`), then pick the first maximal one; `general` when none scored. -/
def scoreSelect (scored : List (String × Nat)) : String :=
  let subject_scores := scored.filter (fun q => q.2 > 0)
  if subject_scores.isEmpty then "general" else pickTopSubject subject_scores

/-- `TutorService._detect_subject`. -/
def detectSubject (question : String) (subject_hint : Option String) : String :=
  let question_lower := strLower question
  let viaScores :=
    scoreSelect (subjectKeywords.map (fun p => (p.1, subjScore question_lower p)))
  match subject_hint with
  | some hint =>
    let hint_lower := strLower hint
    match subjectKeywords.find? (fun p => p.2.any (fun kw => strContains hint_lower kw)) with
    | some p => p.1
    | none => viaScores
  | none => viaScores

/-- `TutorService._generate_follow_up_suggestions`: fixed per-subject table. -/
def followUpSuggestions (subject : String) : List String :=
  if subject = "math" then
    ["Can you show me another example?", "How can I practice this at home?",
     "What comes next in this pattern?"]
  else if subject = "science" then
    ["What experiment could we try?", "How does this work in real life?",
     "What other animals/plants are similar?"]
  else if subject = "language" then
    ["Can you help me with spelling?", "What other words are like this?",
     "How do I use this in a sentence?"]
  else if subject = "social_studies" then
    ["What is life like there?", "How is this different from where I live?",
     "What traditions do they have?"]
  else if subject = "art" then
    ["What materials do I need?", "Can you show me different techniques?",
     "What artists are famous for this?"]
  else
    ["Can you explain that differently?", "What\x27s another example?",
     "How can I learn more about this?"]

/-- `TutorResponse`. -/
structure TutorResponse where
  session_id : String
  answer : String
  subject_detected : String
  follow_up_suggestions : List String
  educational_level : String
  content_filter_applied : String
  message_count : Nat
  is_appropriate : Bool
deriving DecidableEq, Repr

/-- `TutorService._process_question`: subject detection, generation with the one-shot
regeneration policy, suggestion lookup, persistence. -/
def processQuestion (S : Settings) (gens : Nat → List Message → String) (st : MemStore)
    (now : Nat) (session : SessionData) (question : String)
    (subject_hint : Option String) : Except String TutorResponse × MemStore × Nat :=
  let detected_subject := detectSubject question subject_hint
  let session := addMessage now session "user" question
  let messages := session.messages
  let r₁ := gens 0 messages
  match getFilter session.config.content_filter with
  | none => (.error (filterValueError session.config.content_filter), st, 1)
  | some _ =>
    let fv := session.config.content_filter
    let filtered₁ := applyFilter S.safety_filters_enabled r₁ fv
    let v₁ := validateContent S.safety_filters_enabled filtered₁ fv
    let messages₂ := if v₁.1 then messages else messages ++
      [⟨"system", "Please ensure your answer is appropriate for children and follows these guidelines: " ++ optMsg v₁.2⟩]
    let accepted := if v₁.1 then filtered₁
      else applyFilter S.safety_filters_enabled (gens 1 messages₂) fv
    let session := addMessage now { session with messages := messages₂ } "assistant" accepted
    let st₁ := (memUpdateSession st session).2
    (.ok { session_id := session.session_id, answer := accepted,
           subject_detected := detected_subject,
           follow_up_suggestions := followUpSuggestions detected_subject,
           educational_level := session.config.age_group.getD "6-8",
           content_filter_applied := fv,
           message_count := session.messages.length,
           is_appropriate := v₁.1 }, st₁, if v₁.1 then 1 else 2)

/-- `TutorAskRequest`. -/
structure TutorAskRequest where
  session_id : String
  question : String
  subject_hint : Option String := none
deriving DecidableEq, Repr

/-- `TutorService.ask_question`: session lookup, tutor-mode guard, then question
processing. -/
def askQuestion (S : Settings) (gens : Nat → List Message → String) (st : MemStore)
    (now : Nat) (req : TutorAskRequest) : Except String TutorResponse × MemStore × Nat :=
  match memGetSession S.session_timeout_minutes st now req.session_id with
  | (none, st₁) => (.error "Session not found or expired", st₁, 0)
  | (some session, st₁) =>
    if session.mode ≠ SessionMode.tutor then
      (.error "Session is not in tutor mode", st₁, 0)
    else
      processQuestion S gens st₁ now session req.question req.subject_hint

/-- `ConfigRequest` (tutor config update). -/
structure ConfigRequest where
  session_id : String
  content_filter : Option String := none
  age_group : Option String := none
  additional_settings : Option (List (String × String)) := none
deriving DecidableEq, Repr

/-- `ConfigResponse`. -/
structure ConfigResponse where
  session_id : String
  mode : String
  config : SessionConfig
  message : String
deriving DecidableEq, Repr

/-- One entry of `config.update(additional_settings)`: a literal typed key overrides the
corresponding field, anything else lands in `extra` (replace on existing key). -/
def configSet (cfg : SessionConfig) (kv : String × String) : SessionConfig :=
  if kv.1 = "content_filter" then { cfg with content_filter := kv.2 }
  else if kv.1 = "age_group" then { cfg with age_group := some kv.2 }
  else if kv.1 = "preferred_subject" then { cfg with preferred_subject := some kv.2 }
  else if kv.1 = "story_style" then { cfg with story_style := some kv.2 }
  else if (cfg.extra.find? (fun q => q.1 = kv.1)).isSome then
    { cfg with extra := cfg.extra.map (fun q => if q.1 = kv.1 then kv else q) }
  else { cfg with extra := cfg.extra ++ [kv] }

/-- `TutorService.update_config`. -/
def tutorUpdateConfig (S : Settings) (st : MemStore) (now : Nat) (req : ConfigRequest) :
    Except String ConfigResponse × MemStore :=
  match memGetSession S.session_timeout_minutes st now req.session_id with
  | (none, st₁) => (.error "Session not found or expired", st₁)
  | (some session, st₁) =>
    if session.mode ≠ SessionMode.tutor then
      (.error "Session is not in tutor mode", st₁)
    else
      let cfg := session.config
      let cfg := match req.content_filter with
        | some f => { cfg with content_filter := f }
        | none => cfg
      let cfg := match req.age_group with
        | some a => { cfg with age_group := some a }
        | none => cfg
      let cfg := match req.additional_settings with
        | some kvs => kvs.foldl configSet cfg
        | none => cfg
      let session := { session with config := cfg }
      let st₂ := (memUpdateSession st₁ session).2
      (.ok { session_id := req.session_id, mode := "tutor", config := session.config,
             message := "Tutor session configuration updated successfully" }, st₂)

/-- `SessionInfoResponse`. -/
structure SessionInfoResponse where
  session_id : String
  created_at : Nat
  last_accessed : Nat
  message_count : Nat
  config : SessionConfig
  is_expired : Bool
deriving DecidableEq, Repr

/-- `TutorService.get_session_info`. -/
def tutorGetSessionInfo (S : Settings) (st : MemStore) (now : Nat) (sid : String) :
    Except String SessionInfoResponse × MemStore :=
  match memGetSession S.session_timeout_minutes st now sid with
  | (none, st₁) => (.error "Session not found or expired", st₁)
  | (some session, st₁) =>
    if session.mode ≠ SessionMode.tutor then
      (.error "Session is not in tutor mode", st₁)
    else
      (.ok { session_id := sid, created_at := session.created_at,
             last_accessed := session.last_accessed,
             message_count := session.messages.length,
             config := session.config, is_expired := false }, st₁)

/-! ## Auxiliary definitions used by the proofs -/

/-- Maximal word-character runs of a character list (empty runs between adjacent
non-word characters included); `run` is the word run read so far.  This is the
tokenisation with respect to which `replWordAux` substitutes. -/
def wordRunsAux (run : List Char) : List Char → List (List Char)
  | [] => [run]
  | c :: cs =>
    if isWordChar c then wordRunsAux (run ++ [c]) cs
    else run :: wordRunsAux [] cs

/-- Word runs of a string, from a fresh scanner. -/
def wordRuns (s : List Char) : List (List Char) := wordRunsAux [] s

/-- A character list is clean for `w` when no word run lowercases to `w`. -/
def CleanFor (w : List Char) (s : List Char) : Prop :=
  ∀ run ∈ wordRuns s, run.map Char.toLower ≠ w

instance (w s : List Char) : Decidable (CleanFor w s) := by
  unfold CleanFor
  infer_instance

/-- A concrete story-mode session used by witnesses and counterexamples. -/
def sampleSession : SessionData :=
  { session_id := "sid-1", mode := .story, created_at := 0, last_accessed := 0,
    messages := [], config := { content_filter := "moral_values", max_story_length := 1000 } }

/-- A concrete story-mode session whose accumulated assistant words exceed its budget. -/
def sampleLongStory : SessionData :=
  { session_id := "sid-2", mode := .story, created_at := 0, last_accessed := 0,
    messages := [⟨"assistant", "one two three four five"⟩],
    config := { content_filter := "moral_values", max_story_length := 3 } }

/-- A concrete tutor-mode session used by witnesses. -/
def sampleTutor : SessionData :=
  { session_id := "sid-3", mode := .tutor, created_at := 0, last_accessed := 0,
    messages := [], config := { content_filter := "educational", max_story_length := 1000 } }

/-! ## General-purpose lemmas -/

theorem filter_ne_nil_iff_exists {α} (l : List α) (p : α → Bool) :
    l.filter p ≠ [] ↔ ∃ a ∈ l, p a := by
  rw [Ne, List.filter_eq_nil_iff]
  push_neg
  simp

theorem moral_msgs_ne (X : String) :
    "Story should include positive themes like kindness, friendship, or helping others" ≠
      "Content contains inappropriate words: " ++ X := by
  intro h
  have h2 := congrArg String.data h
  have h3 : ("Content contains inappropriate words: " ++ X).data
      = "Content contains inappropriate words: ".data ++ X.data := rfl
  rw [h3] at h2
  have h4 := congrArg List.head? h2
  simp at h4

/-! ## Claim C5 -/

/-- Claim C5.  For every string, `MoralValuesFilter.validate` reports invalid with a
reason naming the offending words exactly when some negative keyword of the fixed
17-word set occurs case-insensitively as a substring; otherwise it is valid exactly when
some of the 13 positive themes occurs; in particular the two spec examples evaluate as
stated. -/
theorem claim_C5 :
    ∀ c : String,
      (((MoralValuesFilter.validate c).1 = true) ↔
        ((∀ w ∈ MoralValuesFilter.negative_keywords, ¬ strContains (strLower c) w) ∧
         (∃ p ∈ MoralValuesFilter.positive_themes, strContains (strLower c) p)))
    ∧ ((∃ w ∈ MoralValuesFilter.negative_keywords, strContains (strLower c) w) ↔
        (MoralValuesFilter.validate c).2 =
          some ("Content contains inappropriate words: " ++
            String.intercalate ", " (MoralValuesFilter.negative_keywords.filter
              (fun w => strContains (strLower c) w))))
    ∧ MoralValuesFilter.validate "A story about sharing and friendship" = (true, none)
    ∧ (MoralValuesFilter.validate "A story about a fight").1 = false
    ∧ strContains (optMsg (MoralValuesFilter.validate "A story about a fight").2) "fight"
        = true := by
  intro c
  refine ⟨?_, ?_, by decide, by decide, by decide⟩
  · simp only [MoralValuesFilter.validate, List.isEmpty_iff]
    by_cases hneg :
        (MoralValuesFilter.negative_keywords.filter (fun w => strContains (strLower c) w)) = []
    · rw [if_pos hneg]
      rw [List.filter_eq_nil_iff] at hneg
      by_cases hpos :
          (MoralValuesFilter.positive_themes.filter (fun t => strContains (strLower c) t)) = []
      · rw [if_pos hpos, List.filter_eq_nil_iff] at *
        simp only [Bool.false_eq_true, false_iff]
        rintro ⟨-, p, hp, hcp⟩
        exact hpos p hp hcp
      · rw [if_neg hpos]
        rw [← Ne, filter_ne_nil_iff_exists] at hpos
        simp only [true_iff]
        exact ⟨fun w hw => by simpa using hneg w hw, hpos⟩
    · rw [if_neg hneg]
      simp only [Bool.false_eq_true, false_iff]
      rw [← Ne, filter_ne_nil_iff_exists] at hneg
      rintro ⟨hall, -⟩
      obtain ⟨w, hw, hcw⟩ := hneg
      exact hall w hw hcw
  · simp only [MoralValuesFilter.validate, List.isEmpty_iff]
    by_cases hneg :
        (MoralValuesFilter.negative_keywords.filter (fun w => strContains (strLower c) w)) = []
    · rw [if_pos hneg]
      constructor
      · intro hex
        rw [← filter_ne_nil_iff_exists] at hex
        exact absurd hneg hex
      · intro h
        exfalso
        by_cases hpos :
            (MoralValuesFilter.positive_themes.filter (fun t => strContains (strLower c) t)) = []
        · rw [if_pos hpos] at h
          have h2 := Option.some.inj h
          exact moral_msgs_ne _ h2
        · rw [if_neg hpos] at h
          exact Option.noConfusion h
    · rw [if_neg hneg]
      rw [← Ne, filter_ne_nil_iff_exists] at hneg
      simpa using hneg

/-! ## Association-list store lemmas -/

theorem storeLookup_map_replace (st : MemStore) (k : String) (v : SessionData) :
    storeLookup (st.map (fun p => if p.1 = k then (k, v) else p)) k
      = if (st.find? (fun p => p.1 = k)).isSome then some v else none := by
  induction st with
  | nil => simp [storeLookup]
  | cons p st ih =>
    by_cases hp : p.1 = k
    · simp [storeLookup, List.find?, hp]
    · simp only [List.map_cons, if_neg hp]
      simp only [storeLookup, List.find?] at ih ⊢
      simp only [show (decide (p.1 = k)) = false by simpa using hp]
      simpa using ih

theorem storeLookup_insert_self (st : MemStore) (k : String) (v : SessionData) :
    storeLookup (storeInsert st k v) k = some v := by
  unfold storeInsert
  by_cases h : (st.find? (fun p => p.1 = k)).isSome
  · rw [if_pos h, storeLookup_map_replace, if_pos h]
  · rw [if_neg h]
    rcases hf : st.find? (fun p => p.1 = k) with - | q
    · simp [storeLookup, List.find?_append, hf, List.find?]
    · rw [hf] at h; simp at h

theorem storeLookup_eq_none_iff (st : MemStore) (k : String) :
    storeLookup st k = none ↔ ∀ p ∈ st, ¬ p.1 = k := by
  unfold storeLookup
  rw [Option.map_eq_none', List.find?_eq_none]
  simp

theorem storeLookup_erase_self (st : MemStore) (k : String) :
    storeLookup (storeErase st k) k = none := by
  rw [storeLookup_eq_none_iff]
  intro p hp
  have := List.of_mem_filter hp
  simpa using this

theorem storeLookup_none_mono (st : MemStore) (q : String × SessionData → Bool) (sid : String)
    (h : storeLookup st sid = none) : storeLookup (st.filter q) sid = none := by
  rw [storeLookup_eq_none_iff] at *
  intro p hp
  exact h p (List.mem_of_mem_filter hp)

theorem storeErase_of_absent (st : MemStore) (k : String)
    (h : storeLookup st k = none) : storeErase st k = st := by
  rw [storeLookup_eq_none_iff] at h
  unfold storeErase
  rw [List.filter_eq_self]
  intro p hp
  simpa using h p hp

theorem memDelete_snd (st : MemStore) (sid : String) :
    (memDeleteSession st sid).2 = storeErase st sid := by
  unfold memDeleteSession
  by_cases h : (storeLookup st sid).isSome
  · rw [if_pos h]
  · rw [if_neg h]
    have h0 : storeLookup st sid = none := by
      cases hl : storeLookup st sid
      · rfl
      · rw [hl] at h; simp at h
    rw [storeErase_of_absent st sid h0]

theorem foldl_erase_eq_filter (ids : List String) :
    ∀ st : MemStore, ids.foldl (fun acc sid => (memDeleteSession acc sid).2) st
      = st.filter (fun p => decide (p.1 ∉ ids)) := by
  induction ids with
  | nil => intro st; simp
  | cons i ids ih =>
    intro st
    rw [List.foldl_cons, memDelete_snd, ih]
    unfold storeErase
    rw [List.filter_filter]
    apply List.filter_congr
    intro p hp
    simp only [List.mem_cons, decide_not]
    by_cases h1 : p.1 = i <;> by_cases h2 : p.1 ∈ ids <;> simp [h1, h2]

theorem redisVal_map_replace (st : RedisStore) (k : String) (v : SessionData × Nat) :
    (((st.map (fun p => if p.1 = k then (k, v) else p)).find?
        (fun p => p.1 = k)).map (fun p => p.2))
      = if (st.find? (fun p => p.1 = k)).isSome then some v else none := by
  induction st with
  | nil => simp
  | cons p st ih =>
    by_cases hp : p.1 = k
    · simp [List.find?, hp]
    · simp only [List.map_cons, if_neg hp]
      simp only [List.find?] at ih ⊢
      simp only [show (decide (p.1 = k)) = false by simpa using hp]
      simpa using ih

theorem redisVal_setex_self (timeout : Nat) (st : RedisStore) (now : Nat) (sid : String)
    (s : SessionData) :
    (((redisSetex timeout st now sid s).find? (fun p => p.1 = sid)).map (fun p => p.2))
      = some (s, now + timeout) := by
  unfold redisSetex
  by_cases h : ((st.find? (fun p => p.1 = sid)).map (fun p => p.2)).isSome
  · have h' : (st.find? (fun p => p.1 = sid)).isSome := by
      rcases hf : st.find? (fun p => p.1 = sid) with - | q
      · rw [hf] at h; simp at h
      · rw [hf]; rfl
    rw [if_pos h, redisVal_map_replace, if_pos h']
  · have h' : st.find? (fun p => p.1 = sid) = none := by
      rcases hf : st.find? (fun p => p.1 = sid) with - | q
      · exact hf
      · rw [hf] at h; simp at h
    rw [if_neg h]
    simp [List.find?_append, h', List.find?]

theorem redisRawGet_setex_self (timeout : Nat) (st : RedisStore) (now : Nat) (sid : String)
    (s : SessionData) (t' : Nat) :
    redisRawGet (redisSetex timeout st now sid s) t' sid
      = if t' < now + timeout then some s else none := by
  unfold redisRawGet
  rw [redisVal_setex_self]

/-! ## Claims C2, C3, C4 -/

/-- Claim C2.  On the in-process store, `get_session` of an expired record reports
not-found and removes the record, so subsequent lookups, reads and sweeps find it absent;
a present non-expired record is returned with `last_accessed` set to the current time and
the refreshed record persisted (sliding TTL on read). -/
theorem claim_C2 :
    ∀ (timeout : Nat) (st : MemStore) (now : Nat) (sid : String) (s : SessionData),
      storeLookup st sid = some s →
      ((now > s.last_accessed + timeout →
          memGetSession timeout st now sid = (none, storeErase st sid) ∧
          storeLookup (storeErase st sid) sid = none ∧
          (∀ now₂, (memGetSession timeout (storeErase st sid) now₂ sid).1 = none) ∧
          (∀ now₂, storeLookup (memCleanup timeout (storeErase st sid) now₂).2 sid = none)) ∧
       (¬ now > s.last_accessed + timeout →
          memGetSession timeout st now sid =
            (some { s with last_accessed := now },
             storeInsert st sid { s with last_accessed := now }))) := by
  intro timeout st now sid s h
  constructor
  · intro hexp
    have habs := storeLookup_erase_self st sid
    refine ⟨?_, habs, ?_, ?_⟩
    · simp [memGetSession, h, isExpired, hexp]
    · intro now₂
      simp [memGetSession, habs]
    · intro now₂
      have h2 : (memCleanup timeout (storeErase st sid) now₂).2
          = (storeErase st sid).filter
              (fun p => decide (p.1 ∉ ((storeErase st sid).filter
                (fun q => isExpired timeout now₂ q.2)).map (fun q => q.1))) :=
        foldl_erase_eq_filter _ _
      rw [h2]
      exact storeLookup_none_mono _ _ _ habs
  · intro hexp
    simp [memGetSession, h, isExpired, hexp]

/-- Claim C2 witness: a concrete expired read removes the record, a concrete live read
refreshes `last_accessed`. -/
theorem claim_C2_witness :
    memGetSession 60 [("sid-1", sampleSession)] 100 "sid-1"
      = (none, storeErase [("sid-1", sampleSession)] "sid-1") ∧
    (memGetSession 60 [("sid-1", sampleSession)] 50 "sid-1").1
      = some { sampleSession with last_accessed := 50 } := by
  constructor
  · exact ((claim_C2 60 [("sid-1", sampleSession)] 100 "sid-1" sampleSession
      (by decide)).1 (by decide)).1
  · have h := (claim_C2 60 [("sid-1", sampleSession)] 50 "sid-1" sampleSession
      (by decide)).2 (by decide)
    exact congrArg Prod.fst h

/-- Claim C3, corrected.  On both backends `update_session` replaces the stored record
and succeeds only when the id already exists (no upsert).  On the Redis backend a
successful update resets the native expiry deadline to the timeout measured from the
update (`setex`), but on the in-process backend `update_session` does not refresh
`last_accessed`, so the effective deadline after a successful update is the *stored
session's own* `last_accessed + timeout`, not update-time + timeout. -/
theorem claim_C3 :
    ∀ (timeout : Nat) (st : MemStore) (rst : RedisStore) (now : Nat) (s : SessionData),
      ((storeLookup st s.session_id).isSome →
        memUpdateSession st s = (true, storeInsert st s.session_id s) ∧
        storeLookup (memUpdateSession st s).2 s.session_id = some s)
      ∧ (storeLookup st s.session_id = none → memUpdateSession st s = (false, st))
      ∧ ((storeLookup st s.session_id).isSome →
          ∀ t', (memGetSession timeout (memUpdateSession st s).2 t' s.session_id).1
            = if t' > s.last_accessed + timeout then none
              else some { s with last_accessed := t' })
      ∧ ((redisRawGet rst now s.session_id).isSome →
          redisUpdateSession timeout rst now s
            = (true, redisSetex timeout rst now s.session_id s) ∧
          ∀ t', redisRawGet (redisUpdateSession timeout rst now s).2 t' s.session_id
            = if t' < now + timeout then some s else none)
      ∧ (redisRawGet rst now s.session_id = none →
          redisUpdateSession timeout rst now s = (false, rst)) := by
  intro timeout st rst now s
  refine ⟨?_, ?_, ?_, ?_, ?_⟩
  · intro h
    refine ⟨by simp [memUpdateSession, h], ?_⟩
    simp only [memUpdateSession, if_pos h]
    exact storeLookup_insert_self st s.session_id s
  · intro h
    simp [memUpdateSession, h]
  · intro h t'
    simp only [memUpdateSession, if_pos h]
    rw [memGetSession, storeLookup_insert_self]
    by_cases hexp : t' > s.last_accessed + timeout
    · simp [isExpired, hexp]
    · simp [isExpired, hexp]
  · intro h
    refine ⟨by simp [redisUpdateSession, h], ?_⟩
    intro t'
    simp only [redisUpdateSession, if_pos h]
    exact redisRawGet_setex_self timeout rst now s.session_id s t'
  · intro h
    simp [redisUpdateSession, h]

/-- Claim C3 counterexample.  `InMemorySessionManager.update_session` reads no clock, so
its result is the same whatever instant the update happens at; take that instant to be
61.  The update succeeds, yet an immediate `get_session` at the very same time 61 — far
inside the window `61 + 60` that the claim promises — already reports the session
expired and gone: the successful update did not reset the expiry deadline to the
configured timeout measured from the update. -/
theorem claim_C3_counterexample :
    (memUpdateSession [("sid-1", sampleSession)] sampleSession).1 = true ∧
    (memGetSession 60 (memUpdateSession [("sid-1", sampleSession)] sampleSession).2
      61 "sid-1").1 = none := by decide

/-- Claim C3 witness: concrete successful updates on both backends, with the Redis
deadline visibly reset to update-time + timeout. -/
theorem claim_C3_witness :
    memUpdateSession [("sid-1", sampleSession)] sampleSession
      = (true, storeInsert [("sid-1", sampleSession)] "sid-1" sampleSession) ∧
    redisUpdateSession 60 [("sid-1", (sampleSession, 10))] 5 sampleSession
      = (true, redisSetex 60 [("sid-1", (sampleSession, 10))] 5 "sid-1" sampleSession) ∧
    redisRawGet (redisUpdateSession 60 [("sid-1", (sampleSession, 10))] 5
      sampleSession).2 64 "sid-1" = some sampleSession := by
  refine ⟨?_, ?_, ?_⟩
  · exact ((claim_C3 60 [("sid-1", sampleSession)] [] 0 sampleSession).1 (by decide)).1
  · exact ((claim_C3 60 [] [("sid-1", (sampleSession, 10))] 5 sampleSession).2.2.2.1
      (by decide)).1
  · have h := ((claim_C3 60 [] [("sid-1", (sampleSession, 10))] 5 sampleSession).2.2.2.1
      (by decide)).2 64
    rw [show sampleSession.session_id = "sid-1" from rfl] at h
    rw [h]
    decide

/-- Claim C4.  `cleanup_expired_sessions` on the Redis backend returns 0 and touches
nothing, for every store; on the in-process backend (with the dict invariant of distinct
keys) it removes exactly the records expired at sweep time and returns their count. -/
theorem claim_C4 :
    ∀ (timeout now : Nat) (rst : RedisStore) (st : MemStore),
      redisCleanup rst = (0, rst)
      ∧ ((st.map Prod.fst).Nodup →
          memCleanup timeout st now =
            ((st.filter (fun p => isExpired timeout now p.2)).length,
             st.filter (fun p => ¬ isExpired timeout now p.2))) := by
  intro timeout now rst st
  refine ⟨rfl, ?_⟩
  intro hnodup
  have hfst : (memCleanup timeout st now).1
      = (st.filter (fun q => isExpired timeout now q.2)).length := by
    simp [memCleanup]
  have hsnd : (memCleanup timeout st now).2
      = st.filter (fun p => decide (p.1 ∉ (st.filter
          (fun q => isExpired timeout now q.2)).map (fun q => q.1))) :=
    foldl_erase_eq_filter _ _
  refine Prod.ext_iff.mpr ⟨hfst, ?_⟩
  rw [hsnd]
  apply List.filter_congr
  intro p hp
  have hiff : p.1 ∈ (st.filter (fun q => isExpired timeout now q.2)).map (fun q => q.1)
      ↔ isExpired timeout now p.2 := by
    constructor
    · intro hm
      simp only [List.mem_map] at hm
      obtain ⟨q, hq, hq1⟩ := hm
      have hqst := (List.mem_filter.mp hq).1
      have heq : q = p := List.inj_on_of_nodup_map hnodup hqst hp hq1
      rw [← heq]
      exact (List.mem_filter.mp hq).2
    · intro hexp
      have hmem : p ∈ st.filter (fun q => isExpired timeout now q.2) :=
        List.mem_filter.mpr ⟨hp, hexp⟩
      exact List.mem_map_of_mem (fun q => q.1) hmem
  by_cases hexp : isExpired timeout now p.2 = true
  · simp [hiff, hexp]
  · simp only [Bool.not_eq_true] at hexp
    simp [hiff, hexp]

/-- Claim C4 witness: a concrete sweep on a one-record store whose record has expired
removes it and reports one removal. -/
theorem claim_C4_witness :
    memCleanup 60 [("sid-1", sampleSession)] 100 = (1, []) := by
  have h := (claim_C4 60 100 [] [("sid-1", sampleSession)]).2 (by decide)
  rw [h]
  decide

/-! ## Claims C9 and C10 -/

/-- Claim C9.  For a filter type outside the three registered keys, and likewise
whenever safety filters are disabled, `apply_filter` returns the content unchanged and
`validate_content` returns `(True, None)`: an unknown filter type never fails and never
rejects or transforms content. -/
theorem claim_C9 :
    ∀ (content filter_type : String) (enabled : Bool),
      ((filter_type ≠ "moral_values" ∧ filter_type ≠ "educational" ∧ filter_type ≠ "fun_only") →
        applyFilter enabled content filter_type = content ∧
        validateContent enabled content filter_type = (true, none))
      ∧ (applyFilter false content filter_type = content ∧
         validateContent false content filter_type = (true, none)) := by
  intro content filter_type enabled
  constructor
  · rintro ⟨h1, h2, h3⟩
    have hg : getFilter filter_type = none := by simp [getFilter, h1, h2, h3]
    cases enabled <;> simp [applyFilter, validateContent, hg]
  · simp [applyFilter, validateContent]

/-- Claim C9 witness: a concrete unknown filter type passes content through, and
disabling the filters passes even negative content through. -/
theorem claim_C9_witness :
    applyFilter true "They had a fight" "bogus" = "They had a fight" ∧
    validateContent true "They had a fight" "bogus" = (true, none) ∧
    applyFilter false "They had a fight" "moral_values" = "They had a fight" := by
  refine ⟨((claim_C9 "They had a fight" "bogus" true).1 (by decide)).1,
          ((claim_C9 "They had a fight" "bogus" true).1 (by decide)).2,
          ((claim_C9 "They had a fight" "moral_values" false).2).1⟩

/-- Claim C10.  On an existing, non-expired session whose mode is not `tutor`,
`ask_question`, the tutor `update_config` and the tutor `get_session_info` all raise
"Session is not in tutor mode" before appending any message, performing any generation,
or touching the config: the stored record afterwards differs from the looked-up one only
in the `last_accessed` refresh done by the read itself. -/
theorem claim_C10 :
    ∀ (S : Settings) (gens : Nat → List Message → String) (st : MemStore) (now : Nat)
      (sid : String) (s : SessionData) (question : String) (hint : Option String)
      (creq : ConfigRequest),
      storeLookup st sid = some s →
      ¬ (now > s.last_accessed + S.session_timeout_minutes) →
      s.mode ≠ SessionMode.tutor →
      creq.session_id = sid →
      (askQuestion S gens st now { session_id := sid, question := question, subject_hint := hint }
          = (.error "Session is not in tutor mode",
             storeInsert st sid { s with last_accessed := now }, 0))
      ∧ tutorUpdateConfig S st now creq
          = (.error "Session is not in tutor mode",
             storeInsert st sid { s with last_accessed := now })
      ∧ tutorGetSessionInfo S st now sid
          = (.error "Session is not in tutor mode",
             storeInsert st sid { s with last_accessed := now })
      ∧ storeLookup (storeInsert st sid { s with last_accessed := now }) sid
          = some { s with last_accessed := now }
      ∧ ({ s with last_accessed := now } : SessionData).messages = s.messages
      ∧ ({ s with last_accessed := now } : SessionData).config = s.config := by
  intro S gens st now sid s question hint creq hlook hexp hmode hcid
  have hget : memGetSession S.session_timeout_minutes st now sid
      = (some { s with last_accessed := now },
         storeInsert st sid { s with last_accessed := now }) := by
    simp [memGetSession, hlook, isExpired, hexp]
  have hmode' : ({ s with last_accessed := now } : SessionData).mode ≠ SessionMode.tutor := hmode
  refine ⟨?_, ?_, ?_, storeLookup_insert_self st sid _, rfl, rfl⟩
  · simp only [askQuestion, hget]
    rw [if_pos hmode']
  · simp only [tutorUpdateConfig, hcid, hget]
    rw [if_pos hmode']
  · simp only [tutorGetSessionInfo, hget]
    rw [if_pos hmode']

/-- Claim C10 witness: the three tutor operations rejected on a concrete story-mode
session, leaving its messages and config as they were. -/
theorem claim_C10_witness :
    (askQuestion ⟨60, true, "moral_values", 1000⟩ (fun _ _ => "") [("sid-1", sampleSession)] 5
        { session_id := "sid-1", question := "why", subject_hint := none }).1
      = .error "Session is not in tutor mode" ∧
    (tutorUpdateConfig ⟨60, true, "moral_values", 1000⟩ [("sid-1", sampleSession)] 5
        { session_id := "sid-1" }).1
      = .error "Session is not in tutor mode" ∧
    storeLookup (storeInsert [("sid-1", sampleSession)] "sid-1"
        { sampleSession with last_accessed := 5 }) "sid-1"
      = some { sampleSession with last_accessed := 5 } := by
  have h := claim_C10 ⟨60, true, "moral_values", 1000⟩ (fun _ _ => "")
    [("sid-1", sampleSession)] 5 "sid-1" sampleSession "why" none
    { session_id := "sid-1" } (by decide) (by decide) (by decide) rfl
  exact ⟨congrArg Prod.fst h.1, congrArg Prod.fst h.2.1, h.2.2.2.1⟩

/-! ## Claim C8: subject detection -/

theorem find?_eq_of_first {α : Type} (P : α → Bool) :
    ∀ (l : List α) (i : Nat) (hi : i < l.length),
      P (l.get ⟨i, hi⟩) = true →
      (∀ j (hj : j < l.length), j < i → P (l.get ⟨j, hj⟩) = false) →
      l.find? P = some (l.get ⟨i, hi⟩) := by
  intro l
  induction l with
  | nil => intro i hi; simp at hi
  | cons a t ih =>
    intro i hi hP hfirst
    cases i with
    | zero =>
      simp only [List.get] at hP
      simp [List.find?, hP]
    | succ j =>
      have ha : P a = false := hfirst 0 (by simp) (Nat.succ_pos j)
      simp only [List.find?, ha]
      have hj : j < t.length := Nat.lt_of_succ_lt_succ hi
      have := ih j hj (by simpa using hP)
        (fun k hk hki => by
          have := hfirst (k + 1) (Nat.succ_lt_succ hk) (Nat.succ_lt_succ hki)
          simpa using this)
      simpa using this

theorem le_foldl_max (l : List Nat) : ∀ a : Nat, a ≤ l.foldl Nat.max a := by
  induction l with
  | nil => intro a; simp
  | cons x t ih =>
    intro a
    calc a ≤ Nat.max a x := Nat.le_max_left a x
    _ ≤ t.foldl Nat.max (Nat.max a x) := ih _

theorem mem_le_foldl_max (l : List Nat) :
    ∀ (a v : Nat), v ∈ l → v ≤ l.foldl Nat.max a := by
  induction l with
  | nil => intro a v hv; simp at hv
  | cons x t ih =>
    intro a v hv
    rcases List.mem_cons.mp hv with h | h
    · subst h
      calc v ≤ Nat.max a v := Nat.le_max_right a v
      _ ≤ t.foldl Nat.max (Nat.max a v) := le_foldl_max t _
    · exact ih _ v h

theorem foldl_max_le (l : List Nat) :
    ∀ (a m : Nat), a ≤ m → (∀ v ∈ l, v ≤ m) → l.foldl Nat.max a ≤ m := by
  induction l with
  | nil => intro a m ha _; simpa using ha
  | cons x t ih =>
    intro a m ha hall
    refine ih _ m (Nat.max_le.mpr ⟨ha, hall x (by simp)⟩) ?_
    intro v hv
    exact hall v (List.mem_cons_of_mem x hv)

theorem foldl_max_eq (l : List Nat) (m : Nat) (hmem : m ∈ l) (hall : ∀ v ∈ l, v ≤ m) :
    l.foldl Nat.max 0 = m :=
  Nat.le_antisymm (foldl_max_le l 0 m (Nat.zero_le m) hall) (mem_le_foldl_max l 0 m hmem)

theorem scoreSelect_first_argmax :
    ∀ (L : List (String × Nat)) (i : Nat) (hi : i < L.length),
      0 < (L.get ⟨i, hi⟩).2 →
      (∀ p ∈ L, p.2 ≤ (L.get ⟨i, hi⟩).2) →
      (∀ j (hj : j < L.length), j < i → (L.get ⟨j, hj⟩).2 < (L.get ⟨i, hi⟩).2) →
      scoreSelect L = (L.get ⟨i, hi⟩).1 := by
  intro L
  induction L with
  | nil => intro i hi; simp at hi
  | cons a t ih =>
    intro i hi hpos hall hlt
    cases i with
    | zero =>
      simp only [List.get] at hpos hall ⊢
      have hfa : ((a :: t).filter (fun q => q.2 > 0)) = a :: t.filter (fun q => q.2 > 0) := by
        rw [List.filter_cons]
        simp [hpos]
      have hm : (((a :: t.filter (fun q => q.2 > 0)).map (fun q => q.2)).foldl Nat.max 0)
          = a.2 := by
        apply foldl_max_eq
        · simp
        · intro v hv
          simp only [List.map_cons, List.mem_cons] at hv
          rcases hv with h | h
          · exact le_of_eq h
          · simp only [List.mem_map] at h
            obtain ⟨q, hq, hq2⟩ := h
            rw [← hq2]
            exact hall q (List.mem_cons_of_mem a (List.mem_of_mem_filter hq))
      simp only [scoreSelect, hfa]
      have : (a :: t.filter (fun q => q.2 > 0)).isEmpty = false := rfl
      rw [this]
      simp only [Bool.false_eq_true, if_false, pickTopSubject, hm]
      simp [List.find?]
    | succ j =>
      have hj : j < t.length := Nat.lt_of_succ_lt_succ hi
      have hsi : ((a :: t).get ⟨j + 1, hi⟩) = t.get ⟨j, hj⟩ := rfl
      rw [hsi] at hpos hall hlt ⊢
      have ha_lt : a.2 < (t.get ⟨j, hj⟩).2 := by
        have := hlt 0 (by simp) (Nat.succ_pos j)
        simpa using this
      have ihyp := ih j hj hpos
        (fun p hp => hall p (List.mem_cons_of_mem a hp))
        (fun k hk hki => by
          have := hlt (k + 1) (Nat.succ_lt_succ hk) (Nat.succ_lt_succ hki)
          simpa using this)
      -- it remains to show scoreSelect (a :: t) = scoreSelect t
      rw [← ihyp]
      have hsi_mem : t.get ⟨j, hj⟩ ∈ t.filter (fun q => q.2 > 0) := by
        refine List.mem_filter.mpr ⟨List.get_mem t j hj, by simpa using hpos⟩
      have htne : (t.filter (fun q => q.2 > 0)).isEmpty = false := by
        cases hfe : (t.filter (fun q => q.2 > 0))
        · rw [hfe] at hsi_mem; simp at hsi_mem
        · rfl
      by_cases hax : a.2 > 0
      · have hfa : ((a :: t).filter (fun q => q.2 > 0))
            = a :: t.filter (fun q => q.2 > 0) := by
          rw [List.filter_cons]; simp [hax]
        have hae : (a :: t.filter (fun q => q.2 > 0)).isEmpty = false := rfl
        simp only [scoreSelect, hfa, hae, htne, Bool.false_eq_true, if_false]
        -- the added head has a score strictly below the maximum, so it changes
        -- neither the maximum nor the first entry attaining it
        have hsile : (t.get ⟨j, hj⟩).2
            ≤ ((t.filter (fun q => q.2 > 0)).map (fun q => q.2)).foldl Nat.max 0 := by
          apply mem_le_foldl_max
          exact List.mem_map_of_mem (fun q => q.2) hsi_mem
        have hmax_eq :
            (((a :: t.filter (fun q => q.2 > 0)).map (fun q => q.2)).foldl Nat.max 0)
              = ((t.filter (fun q => q.2 > 0)).map (fun q => q.2)).foldl Nat.max 0 := by
          apply Nat.le_antisymm
          · apply foldl_max_le
            · exact Nat.zero_le _
            · intro v hv
              simp only [List.map_cons, List.mem_cons] at hv
              rcases hv with h | h
              · subst h
                exact Nat.le_trans (Nat.le_of_lt ha_lt) hsile
              · exact mem_le_foldl_max _ 0 v h
          · apply foldl_max_le
            · exact Nat.zero_le _
            · intro v hv
              refine mem_le_foldl_max _ 0 v ?_
              simp only [List.map_cons, List.mem_cons]
              exact Or.inr hv
        simp only [pickTopSubject, hmax_eq]
        have hane : (a.2 = ((t.filter (fun q => q.2 > 0)).map (fun q => q.2)).foldl Nat.max 0)
            = False := by
          simp only [eq_iff_iff, iff_false]
          intro heq
          have := Nat.lt_of_lt_of_le ha_lt hsile
          omega
        simp only [List.find?]
        rw [show (decide (a.2 = ((t.filter (fun q => q.2 > 0)).map
          (fun q => q.2)).foldl Nat.max 0)) = false by simp [hane]]
      · have hfa : ((a :: t).filter (fun q => q.2 > 0)) = t.filter (fun q => q.2 > 0) := by
          rw [List.filter_cons]; simp [hax]
        simp only [scoreSelect, hfa]

/-- Claim C8.  Subject detection: a hint whose lowercased text contains some
category's keyword resolves to the first such category in the declared order
math, science, language, social_studies, art, general; a hint hitting no category falls
through to question scoring; scoring picks the first category attaining the maximal
positive keyword-hit count, and `general` when nothing matches; `"add numbers"` resolves
to math and the empty question to general. -/
theorem claim_C8 :
    (∀ (q hint : String) (i : Nat) (hi : i < subjectKeywords.length),
       ((subjectKeywords.get ⟨i, hi⟩).2.any
          (fun kw => strContains (strLower hint) kw)) = true →
       (∀ j (hj : j < subjectKeywords.length), j < i →
          ((subjectKeywords.get ⟨j, hj⟩).2.any
            (fun kw => strContains (strLower hint) kw)) = false) →
       detectSubject q (some hint) = (subjectKeywords.get ⟨i, hi⟩).1)
  ∧ (∀ (q hint : String),
       (∀ p ∈ subjectKeywords, p.2.any (fun kw => strContains (strLower hint) kw) = false) →
       detectSubject q (some hint) = detectSubject q none)
  ∧ (∀ (q : String) (i : Nat) (hi : i < subjectKeywords.length),
       0 < subjScore (strLower q) (subjectKeywords.get ⟨i, hi⟩) →
       (∀ p ∈ subjectKeywords,
          subjScore (strLower q) p ≤ subjScore (strLower q) (subjectKeywords.get ⟨i, hi⟩)) →
       (∀ j (hj : j < subjectKeywords.length), j < i →
          subjScore (strLower q) (subjectKeywords.get ⟨j, hj⟩)
            < subjScore (strLower q) (subjectKeywords.get ⟨i, hi⟩)) →
       detectSubject q none = (subjectKeywords.get ⟨i, hi⟩).1)
  ∧ (∀ q : String,
       (∀ p ∈ subjectKeywords, subjScore (strLower q) p = 0) →
       detectSubject q none = "general")
  ∧ detectSubject "add numbers" none = "math"
  ∧ detectSubject "" none = "general" := by
  refine ⟨?_, ?_, ?_, ?_, by decide, by decide⟩
  · intro q hint i hi hhit hfirst
    have hf := find?_eq_of_first
      (fun p => p.2.any (fun kw => strContains (strLower hint) kw))
      subjectKeywords i hi hhit hfirst
    simp [detectSubject, hf]
  · intro q hint hall
    have hf : subjectKeywords.find?
        (fun p => p.2.any (fun kw => strContains (strLower hint) kw)) = none :=
      List.find?_eq_none.mpr (fun p hp => by simp [hall p hp])
    simp [detectSubject, hf]
  · intro q i hi hpos hall hlt
    have hlen : i < (subjectKeywords.map
        (fun p => (p.1, subjScore (strLower q) p))).length := by simpa using hi
    have hget : ∀ (k : Nat) (hk : k < subjectKeywords.length),
        (subjectKeywords.map (fun p => (p.1, subjScore (strLower q) p))).get
            ⟨k, by simpa using hk⟩
          = ((subjectKeywords.get ⟨k, hk⟩).1,
             subjScore (strLower q) (subjectKeywords.get ⟨k, hk⟩)) := by
      intro k hk
      simp
    have hmain := scoreSelect_first_argmax
      (subjectKeywords.map (fun p => (p.1, subjScore (strLower q) p))) i hlen
      (by rw [hget i hi]; exact hpos)
      (by
        intro p hp
        rw [hget i hi]
        obtain ⟨orig, ho, rfl⟩ := List.mem_map.mp hp
        exact hall orig ho)
      (by
        intro j hj hji
        have hj' : j < subjectKeywords.length := by simpa using hj
        rw [hget i hi, hget j hj']
        exact hlt j hj' hji)
    rw [hget i hi] at hmain
    simpa [detectSubject] using hmain
  · intro q hall
    have hfe : (subjectKeywords.map (fun p => (p.1, subjScore (strLower q) p))).filter
        (fun p => p.2 > 0) = [] := by
      rw [List.filter_eq_nil_iff]
      intro x hx
      obtain ⟨orig, ho, rfl⟩ := List.mem_map.mp hx
      simp [hall orig ho]
    simp [detectSubject, scoreSelect, hfe]

/-- Claim C8 witness: the hint path taken at a concrete hint hitting the math keywords
first, and the scoring path taken at a concrete question whose best-scoring category is
science. -/
theorem claim_C8_witness :
    detectSubject "what is this" (some "counting") = "math" ∧
    detectSubject "tell me about animals" none = "science" := by
  constructor
  · exact claim_C8.1 "what is this" "counting" 0 (by decide) (by decide)
      (fun j hj hji => absurd hji (Nat.not_lt_zero j))
  · exact claim_C8.2.2.1 "tell me about animals" 1 (by decide) (by decide) (by decide)
      (fun j hj hji => by
        have hj0 : j = 0 := Nat.lt_one_iff.mp hji
        subst hj0
        exact (by decide :
          subjScore (strLower "tell me about animals")
              (subjectKeywords.get ⟨0, Nat.succ_pos 5⟩)
            < subjScore (strLower "tell me about animals")
              (subjectKeywords.get ⟨1, Nat.succ_lt_succ (Nat.succ_pos 4)⟩)))

/-! ## Claims C7 and C1: the turn pipeline -/

theorem assistantWordCount_append_other (msgs : List Message) (r c : String)
    (h : r ≠ "assistant") :
    assistantWordCount (msgs ++ [⟨r, c⟩]) = assistantWordCount msgs := by
  unfold assistantWordCount
  rw [List.filter_append]
  have he : List.filter (fun m => m.role = "assistant") [(⟨r, c⟩ : Message)] = [] := by
    simp [List.filter, h]
  rw [he, List.append_nil]

theorem memGet_persists (timeout : Nat) (st : MemStore) (now : Nat) (sid : String)
    (sess : SessionData) (h : (memGetSession timeout st now sid).1 = some sess) :
    storeLookup (memGetSession timeout st now sid).2 sid = some sess := by
  rcases hl : storeLookup st sid with - | s
  · unfold memGetSession at h
    rw [hl] at h
    simp at h
  · unfold memGetSession at h ⊢
    rw [hl] at h ⊢
    dsimp only at h ⊢
    by_cases hexp : isExpired timeout now s = true
    · rw [if_pos hexp] at h
      simp at h
    · rw [if_neg hexp] at h ⊢
      simp only at h
      have hs : ({ s with last_accessed := now } : SessionData) = sess :=
        Option.some.inj h
      simp only [hs]
      exact storeLookup_insert_self st sid sess

theorem continueStory_run (S : Settings) (gens : Nat → List Message → String)
    (st : MemStore) (now : Nat) (req : StoryContinueRequest) (sess : SessionData)
    (fk : FilterKind)
    (h1 : (memGetSession S.session_timeout_minutes st now req.session_id).1 = some sess)
    (hcf : getFilter sess.config.content_filter = some fk) :
    continueStory S gens st now req =
      (let fv := sess.config.content_filter
       let messages := sess.messages ++ [⟨"user", req.user_input⟩] ++
         (if assistantWordCount sess.messages > sess.config.max_story_length then
            [⟨"system", "Please bring the story to a satisfying conclusion in the next response."⟩]
          else [])
       let filtered₁ := applyFilter S.safety_filters_enabled (gens 0 messages) fv
       let v₁ := validateContent S.safety_filters_enabled filtered₁ fv
       let messages₂ := if v₁.1 then messages else messages ++
         [⟨"system", "Please ensure the continuation follows these guidelines: " ++ optMsg v₁.2⟩]
       let accepted := if v₁.1 then filtered₁
         else applyFilter S.safety_filters_enabled (gens 1 messages₂) fv
       ((.ok { session_id := req.session_id, story_content := accepted, choices := none,
               is_complete := checkStoryCompletion accepted
                 || decide (assistantWordCount sess.messages > sess.config.max_story_length),
               word_count := wordCount accepted,
               content_filter_applied := fv,
               message_count := (messages₂ ++ [(⟨"assistant", accepted⟩ : Message)]).length },
         (memUpdateSession (memGetSession S.session_timeout_minutes st now req.session_id).2
           { sess with messages := messages₂ ++ [(⟨"assistant", accepted⟩ : Message)],
                       last_accessed := now }).2,
         if v₁.1 then 1 else 2))) := by
  have heq : memGetSession S.session_timeout_minutes st now req.session_id
      = (some sess, (memGetSession S.session_timeout_minutes st now req.session_id).2) := by
    rw [← h1]
  have hW : assistantWordCount (sess.messages ++ [⟨"user", req.user_input⟩])
      = assistantWordCount sess.messages :=
    assistantWordCount_append_other sess.messages "user" req.user_input (by decide)
  simp only [continueStory]
  rw [heq]
  dsimp only [addMessage]
  simp only [hW]
  by_cases hbudget : assistantWordCount sess.messages > sess.config.max_story_length
  · simp only [if_pos hbudget, hcf]
  · simp only [if_neg hbudget, hcf]
    simp only [List.append_assoc, List.append_nil]

theorem prefix_ite_self_append {α : Type} (c : Prop) [Decidable c] (m r : List α) :
    m <+: (if c then m else m ++ r) := by
  by_cases h : c
  · simp [h]
  · simp [h]

/-- Claim C7.  In story-continue the cumulative assistant word count is computed before
generation; when it strictly exceeds `max_story_length`, a concluding system turn is
injected before the generate call (visible as a prefix of the stored history); and the
returned completion flag is true exactly when the accepted content matches an ending
phrase or that pre-turn count exceeded the budget — in particular, any session already
over budget reports `is_complete = true` on its next continuation. -/
theorem claim_C7 :
    ∀ (S : Settings) (gens : Nat → List Message → String) (st : MemStore) (now : Nat)
      (req : StoryContinueRequest) (sess : SessionData) (fk : FilterKind),
      (memGetSession S.session_timeout_minutes st now req.session_id).1 = some sess →
      sess.session_id = req.session_id →
      getFilter sess.config.content_filter = some fk →
      ∃ resp st' calls,
        continueStory S gens st now req = (.ok resp, st', calls) ∧
        resp.is_complete = (checkStoryCompletion resp.story_content
          || decide (assistantWordCount sess.messages > sess.config.max_story_length)) ∧
        (assistantWordCount sess.messages > sess.config.max_story_length →
          resp.is_complete = true) ∧
        (∃ stored, storeLookup st' req.session_id = some stored ∧
          (sess.messages ++ [⟨"user", req.user_input⟩] ++
            (if assistantWordCount sess.messages > sess.config.max_story_length then
               [⟨"system", "Please bring the story to a satisfying conclusion in the next response."⟩]
             else [])) <+: stored.messages) := by
  intro S gens st now req sess fk h1 hsid hcf
  rw [continueStory_run S gens st now req sess fk h1 hcf]
  dsimp only
  refine ⟨_, _, _, rfl, rfl, ?_, ?_⟩
  · intro h
    simp [h]
  · have hpers := memGet_persists S.session_timeout_minutes st now req.session_id sess h1
    simp only [memUpdateSession]
    rw [hsid, hpers]
    simp only [Option.isSome_some, if_true]
    rw [storeLookup_insert_self]
    refine ⟨_, rfl, ?_⟩
    dsimp only
    refine List.IsPrefix.trans ?_ (List.prefix_append _ _)
    exact prefix_ite_self_append _ _ _

/-- Claim C7 witness: a concrete over-budget session whose next continuation reports
completion. -/
theorem claim_C7_witness :
    ∃ resp st' calls,
      continueStory ⟨60, true, "moral_values", 1000⟩
          (fun _ _ => "They shared kindness. The end.")
          [("sid-2", sampleLongStory)] 5 { session_id := "sid-2", user_input := "go on" }
        = (.ok resp, st', calls) ∧
      resp.is_complete = true := by
  obtain ⟨resp, st', calls, hrun, -, himp, -⟩ :=
    claim_C7 ⟨60, true, "moral_values", 1000⟩
      (fun _ _ => "They shared kindness. The end.") [("sid-2", sampleLongStory)] 5
      { session_id := "sid-2", user_input := "go on" }
      { sampleLongStory with last_accessed := 5 } FilterKind.moral_values
      (by decide) rfl rfl
  exact ⟨resp, st', calls, hrun, himp (by decide)⟩

theorem processQuestion_run (S : Settings) (gens : Nat → List Message → String)
    (st : MemStore) (now : Nat) (sess : SessionData) (question : String)
    (hint : Option String) (fk : FilterKind)
    (hcf : getFilter sess.config.content_filter = some fk) :
    processQuestion S gens st now sess question hint =
      (let fv := sess.config.content_filter
       let msgs := sess.messages ++ [⟨"user", question⟩]
       let f₁ := applyFilter S.safety_filters_enabled (gens 0 msgs) fv
       let v₁ := validateContent S.safety_filters_enabled f₁ fv
       let messages₂ := if v₁.1 then msgs else msgs ++
         [⟨"system", "Please ensure your answer is appropriate for children and follows these guidelines: " ++ optMsg v₁.2⟩]
       let accepted := if v₁.1 then f₁
         else applyFilter S.safety_filters_enabled (gens 1 messages₂) fv
       ((.ok { session_id := sess.session_id, answer := accepted,
               subject_detected := detectSubject question hint,
               follow_up_suggestions := followUpSuggestions (detectSubject question hint),
               educational_level := sess.config.age_group.getD "6-8",
               content_filter_applied := fv,
               message_count := (messages₂ ++ [(⟨"assistant", accepted⟩ : Message)]).length,
               is_appropriate := v₁.1 },
         (memUpdateSession st
           { sess with messages := messages₂ ++ [(⟨"assistant", accepted⟩ : Message)],
                       last_accessed := now }).2,
         if v₁.1 then 1 else 2))) := by
  simp only [processQuestion, addMessage, hcf]

theorem startStory_run (S : Settings) (promptFor : FilterKind → String)
    (gens : Nat → List Message → String) (st : MemStore) (now : Nat) (newId : String)
    (req : StoryStartRequest) (fk : FilterKind)
    (hcf : getFilter (req.content_filter.getD S.default_content_filter) = some fk) :
    startStory S promptFor gens st now newId req =
      (let cf := req.content_filter.getD S.default_content_filter
       let base : List Message :=
         [⟨"system", promptFor fk ++ "\n\n" ++ storyAgePrompt req.age_group
             ++ "\n\n" ++ lengthPrompt req.story_length⟩,
          ⟨"user", createInitialPrompt req⟩]
       let f₁ := applyFilter S.safety_filters_enabled (gens 0 base) cf
       let v₁ := validateContent S.safety_filters_enabled f₁ cf
       let messages₂ := if v₁.1 then base else base ++
         [⟨"system", "Please ensure the story follows these guidelines: " ++ optMsg v₁.2⟩]
       let accepted := if v₁.1 then f₁
         else applyFilter S.safety_filters_enabled (gens 1 messages₂) cf
       let final : SessionData :=
         { session_id := newId, mode := .story, created_at := now, last_accessed := now,
           messages := messages₂ ++ [(⟨"assistant", accepted⟩ : Message)],
           config := { content_filter := cf, max_story_length := S.max_story_length } }
       ((.ok { session_id := newId, story_content := accepted, choices := none,
               is_complete := checkStoryCompletion accepted,
               word_count := wordCount accepted,
               content_filter_applied := cf,
               message_count := final.messages.length },
         (memUpdateSession
           (memGetSession S.session_timeout_minutes
             (memCreateSession S.default_content_filter S.max_story_length st now newId
               SessionMode.story) now newId).2 final).2,
         if v₁.1 then 1 else 2))) := by
  have hlk : storeLookup (memCreateSession S.default_content_filter S.max_story_length
      st now newId SessionMode.story) newId
      = some (SessionData.mk' S.default_content_filter S.max_story_length newId
          SessionMode.story now) :=
    storeLookup_insert_self st newId _
  have hexp : isExpired S.session_timeout_minutes now
      (SessionData.mk' S.default_content_filter S.max_story_length newId
        SessionMode.story now) = false := by
    simp [isExpired, SessionData.mk']
  have hget : memGetSession S.session_timeout_minutes
      (memCreateSession S.default_content_filter S.max_story_length st now newId
        SessionMode.story) now newId
      = (some (
          { session_id := newId, mode := SessionMode.story, created_at := now,
            last_accessed := now, messages := [],
            config := { content_filter := S.default_content_filter,
                        max_story_length := S.max_story_length } } : SessionData),
         (memGetSession S.session_timeout_minutes
           (memCreateSession S.default_content_filter S.max_story_length st now newId
             SessionMode.story) now newId).2) := by
    refine Prod.ext_iff.mpr ⟨?_, rfl⟩
    unfold memGetSession
    rw [hlk]
    dsimp only
    rw [hexp]
    simp [SessionData.mk']
  simp only [startStory]
  rw [hget]
  rcases hrc : req.content_filter with - | f
  · dsimp only [SessionData.mk', addMessage]
    have hcf' : getFilter S.default_content_filter = some fk := by
      rw [hrc] at hcf
      simpa using hcf
    rw [hcf']
    simp only [hrc, Option.getD_none, List.nil_append, List.singleton_append]
  · dsimp only [SessionData.mk', addMessage]
    have hcf' : getFilter f = some fk := by
      rw [hrc] at hcf
      simpa using hcf
    rw [hcf']
    simp only [hrc, Option.getD_some, List.nil_append, List.singleton_append]

theorem memGet_create_fresh (df : String) (dm t : Nat) (st : MemStore) (now : Nat)
    (sid : String) (mode : SessionMode) :
    memGetSession t (memCreateSession df dm st now sid mode) now sid
      = (some (
          { session_id := sid, mode := mode, created_at := now, last_accessed := now,
            messages := [],
            config := { content_filter := df, max_story_length := dm } } : SessionData),
         (memGetSession t (memCreateSession df dm st now sid mode) now sid).2) := by
  refine Prod.ext_iff.mpr ⟨?_, rfl⟩
  unfold memGetSession memCreateSession
  rw [storeLookup_insert_self st sid _]
  dsimp only
  rw [show isExpired t now (SessionData.mk' df dm sid mode now) = false by
    simp [isExpired, SessionData.mk']]
  simp [SessionData.mk']

/-- Claim C1.  For each turn operation (story-start, story-continue, tutor
question-processing): the operation returns a result, never an error, whatever the
validation outcome; exactly one generate call is made when the first filtered output
passes validation and exactly two when it fails; on failure exactly one extra system
turn is appended and the filtered output of the second attempt is both returned and
stored as the assistant turn, with no condition on whether it would itself pass
validation (the tutor merely reports the first validation verdict in
`is_appropriate`); and the whole operation is insensitive to the generation oracle
beyond its first two calls — no third generation call is ever made. -/
theorem claim_C1 :
    (∀ (S : Settings) (promptFor : FilterKind → String)
       (gens : Nat → List Message → String) (st : MemStore) (now : Nat) (newId : String)
       (req : StoryStartRequest) (fk : FilterKind),
       getFilter (req.content_filter.getD S.default_content_filter) = some fk →
       (let cf := req.content_filter.getD S.default_content_filter
        let base : List Message :=
          [⟨"system", promptFor fk ++ "\n\n" ++ storyAgePrompt req.age_group
              ++ "\n\n" ++ lengthPrompt req.story_length⟩,
           ⟨"user", createInitialPrompt req⟩]
        let v₁ := validateContent S.safety_filters_enabled
          (applyFilter S.safety_filters_enabled (gens 0 base) cf) cf
        let regen : Message :=
          ⟨"system", "Please ensure the story follows these guidelines: " ++ optMsg v₁.2⟩
        let a₂ := applyFilter S.safety_filters_enabled (gens 1 (base ++ [regen])) cf
        ∃ resp st' calls,
          startStory S promptFor gens st now newId req = (.ok resp, st', calls) ∧
          (v₁.1 = true → calls = 1) ∧
          (v₁.1 = false → calls = 2 ∧ resp.story_content = a₂ ∧
            ∃ stored, storeLookup st' newId = some stored ∧
              stored.messages = base ++ [regen, ⟨"assistant", a₂⟩]) ∧
          (∀ gens' : Nat → List Message → String, gens' 0 = gens 0 → gens' 1 = gens 1 →
            startStory S promptFor gens' st now newId req
              = startStory S promptFor gens st now newId req)))
  ∧ (∀ (S : Settings) (gens : Nat → List Message → String) (st : MemStore) (now : Nat)
       (req : StoryContinueRequest) (sess : SessionData) (fk : FilterKind),
       (memGetSession S.session_timeout_minutes st now req.session_id).1 = some sess →
       sess.session_id = req.session_id →
       getFilter sess.config.content_filter = some fk →
       (let cf := sess.config.content_filter
        let base := sess.messages ++ [(⟨"user", req.user_input⟩ : Message)] ++
          (if assistantWordCount sess.messages > sess.config.max_story_length then
             [(⟨"system", "Please bring the story to a satisfying conclusion in the next response."⟩ : Message)]
           else [])
        let v₁ := validateContent S.safety_filters_enabled
          (applyFilter S.safety_filters_enabled (gens 0 base) cf) cf
        let regen : Message :=
          ⟨"system", "Please ensure the continuation follows these guidelines: " ++ optMsg v₁.2⟩
        let a₂ := applyFilter S.safety_filters_enabled (gens 1 (base ++ [regen])) cf
        ∃ resp st' calls,
          continueStory S gens st now req = (.ok resp, st', calls) ∧
          (v₁.1 = true → calls = 1) ∧
          (v₁.1 = false → calls = 2 ∧ resp.story_content = a₂ ∧
            ∃ stored, storeLookup st' req.session_id = some stored ∧
              stored.messages = base ++ [regen, ⟨"assistant", a₂⟩]) ∧
          (∀ gens' : Nat → List Message → String, gens' 0 = gens 0 → gens' 1 = gens 1 →
            continueStory S gens' st now req = continueStory S gens st now req)))
  ∧ (∀ (S : Settings) (gens : Nat → List Message → String) (st : MemStore) (now : Nat)
       (sess : SessionData) (question : String) (hint : Option String) (fk : FilterKind),
       getFilter sess.config.content_filter = some fk →
       (storeLookup st sess.session_id).isSome →
       (let cf := sess.config.content_filter
        let base := sess.messages ++ [(⟨"user", question⟩ : Message)]
        let v₁ := validateContent S.safety_filters_enabled
          (applyFilter S.safety_filters_enabled (gens 0 base) cf) cf
        let regen : Message :=
          ⟨"system", "Please ensure your answer is appropriate for children and follows these guidelines: " ++ optMsg v₁.2⟩
        let a₂ := applyFilter S.safety_filters_enabled (gens 1 (base ++ [regen])) cf
        ∃ resp st' calls,
          processQuestion S gens st now sess question hint = (.ok resp, st', calls) ∧
          resp.is_appropriate = v₁.1 ∧
          (v₁.1 = true → calls = 1) ∧
          (v₁.1 = false → calls = 2 ∧ resp.answer = a₂ ∧
            ∃ stored, storeLookup st' sess.session_id = some stored ∧
              stored.messages = base ++ [regen, ⟨"assistant", a₂⟩]) ∧
          (∀ gens' : Nat → List Message → String, gens' 0 = gens 0 → gens' 1 = gens 1 →
            processQuestion S gens' st now sess question hint
              = processQuestion S gens st now sess question hint))) := by
  refine ⟨?_, ?_, ?_⟩
  · intro S promptFor gens st now newId req fk hcf
    rw [startStory_run S promptFor gens st now newId req fk hcf]
    dsimp only
    refine ⟨_, _, _, rfl, ?_, ?_, ?_⟩
    · intro hv
      rw [if_pos hv]
    · intro hv
      simp only [hv, Bool.false_eq_true, if_false]
      refine ⟨trivial, trivial, ?_⟩
      have hp := memGet_persists S.session_timeout_minutes
        (memCreateSession S.default_content_filter S.max_story_length st now newId
          SessionMode.story) now newId _
        (congrArg Prod.fst (memGet_create_fresh S.default_content_filter
          S.max_story_length S.session_timeout_minutes st now newId SessionMode.story))
      simp only [memUpdateSession]
      rcases hrc : req.content_filter with - | f
      all_goals
        simp only [hrc, Option.getD_none, Option.getD_some]
        rw [hp]
        simp only [Option.isSome_some, if_true]
        rw [storeLookup_insert_self]
        exact ⟨_, rfl, by simp [hv]⟩
    · intro gens' hg0 hg1
      rw [startStory_run S promptFor gens' st now newId req fk hcf]
      simp only [hg0, hg1]
  · intro S gens st now req sess fk h1 hsid hcf
    rw [continueStory_run S gens st now req sess fk h1 hcf]
    dsimp only
    refine ⟨_, _, _, rfl, ?_, ?_, ?_⟩
    · intro hv
      rw [if_pos hv]
    · intro hv
      simp only [hv, Bool.false_eq_true, if_false]
      refine ⟨trivial, trivial, ?_⟩
      have hp := memGet_persists S.session_timeout_minutes st now req.session_id sess h1
      simp only [memUpdateSession]
      rw [hsid, hp]
      simp only [Option.isSome_some, if_true]
      rw [storeLookup_insert_self]
      exact ⟨_, rfl, by simp [hv]⟩
    · intro gens' hg0 hg1
      rw [continueStory_run S gens' st now req sess fk h1 hcf]
      simp only [hg0, hg1]
  · intro S gens st now sess question hint fk hcf hsome
    rw [processQuestion_run S gens st now sess question hint fk hcf]
    dsimp only
    refine ⟨_, _, _, rfl, rfl, ?_, ?_, ?_⟩
    · intro hv
      rw [if_pos hv]
    · intro hv
      simp only [hv, Bool.false_eq_true, if_false]
      refine ⟨trivial, trivial, ?_⟩
      simp only [memUpdateSession]
      rw [if_pos hsome]
      rw [storeLookup_insert_self]
      exact ⟨_, rfl, by simp [hv]⟩
    · intro gens' hg0 hg1
      rw [processQuestion_run S gens' st now sess question hint fk hcf]
      simp only [hg0, hg1]

/-- Claim C1 witness: concrete runs of all three operations in which the first output
fails validation and the second output — itself still failing validation — is accepted,
returned, and counted as the one regeneration. -/
theorem claim_C1_witness :
    (∃ resp st',
      startStory ⟨60, true, "moral_values", 1000⟩ (fun _ => "P")
          (fun k _ => if k = 0 then "a plain story" else "still plain")
          [] 0 "new" { prompt := "cats" }
        = (.ok resp, st', 2) ∧
      resp.story_content = "still plain" ∧
      (validateContent true resp.story_content "moral_values").1 = false) ∧
    (∃ resp st',
      processQuestion ⟨60, true, "moral_values", 1000⟩
          (fun k _ => if k = 0 then "nothing" else "count the stars")
          [("sid-3", sampleTutor)] 7 sampleTutor "what is a star" none
        = (.ok resp, st', 2) ∧
      resp.answer = "count the stars" ∧
      resp.is_appropriate = false) ∧
    (∃ resp st',
      continueStory ⟨60, true, "moral_values", 1000⟩
          (fun k _ => if k = 0 then "a plain tale" else "a kind ending")
          [("sid-2", sampleLongStory)] 5 { session_id := "sid-2", user_input := "go on" }
        = (.ok resp, st', 2) ∧
      resp.story_content = "a kind ending") := by
  refine ⟨?_, ?_, ?_⟩
  · have H := claim_C1.1 ⟨60, true, "moral_values", 1000⟩ (fun _ => "P")
      (fun k _ => if k = 0 then "a plain story" else "still plain")
      [] 0 "new" { prompt := "cats" } FilterKind.moral_values (by decide)
    obtain ⟨resp, st', calls, hrun, -, hinv, -⟩ := H
    obtain ⟨hcalls, hcontent, -⟩ := hinv (by decide)
    have hc2 : resp.story_content = "still plain" := hcontent.trans (by decide)
    refine ⟨resp, st', ?_, hc2, ?_⟩
    · rw [← hcalls]
      exact hrun
    · rw [hc2]
      decide
  · have H := claim_C1.2.2 ⟨60, true, "moral_values", 1000⟩
      (fun k _ => if k = 0 then "nothing" else "count the stars")
      [("sid-3", sampleTutor)] 7 sampleTutor "what is a star" none
      FilterKind.educational (by decide) (by decide)
    obtain ⟨resp, st', calls, hrun, happr, -, hinv, -⟩ := H
    obtain ⟨hcalls, hcontent, -⟩ := hinv (by decide)
    refine ⟨resp, st', ?_, hcontent.trans (by decide), happr.trans (by decide)⟩
    rw [← hcalls]
    exact hrun
  · have H := claim_C1.2.1 ⟨60, true, "moral_values", 1000⟩
      (fun k _ => if k = 0 then "a plain tale" else "a kind ending")
      [("sid-2", sampleLongStory)] 5 { session_id := "sid-2", user_input := "go on" }
      { sampleLongStory with last_accessed := 5 } FilterKind.moral_values
      (by decide) rfl rfl
    obtain ⟨resp, st', calls, hrun, -, hinv, -⟩ := H
    obtain ⟨hcalls, hcontent, -⟩ := hinv (by decide)
    refine ⟨resp, st', ?_, hcontent.trans (by decide)⟩
    rw [← hcalls]
    exact hrun

/-! ## Claim C6: filter transform algebra -/

theorem wordRunsAux_all_word :
    ∀ (cur acc : List Char), cur.all isWordChar = true →
      wordRunsAux acc cur = [acc ++ cur] := by
  intro cur
  induction cur with
  | nil => intro acc _; simp [wordRunsAux]
  | cons c cs ih =>
    intro acc hall
    simp only [List.all_cons, Bool.and_eq_true] at hall
    simp only [wordRunsAux, hall.1, if_true]
    rw [ih (acc ++ [c]) hall.2]
    simp

theorem wordRunsAux_append_nonword (c : Char) (hc : isWordChar c = false) (B : List Char) :
    ∀ (A acc : List Char),
      wordRunsAux acc (A ++ c :: B) = wordRunsAux acc A ++ wordRunsAux [] B := by
  intro A
  induction A with
  | nil =>
    intro acc
    simp [wordRunsAux, hc]
  | cons a A ih =>
    intro acc
    by_cases ha : isWordChar a = true
    · simp only [List.cons_append, wordRunsAux, ha, if_true]
      exact ih (acc ++ [a])
    · simp only [List.cons_append, wordRunsAux, if_neg ha]
      rw [show A.append (c :: B) = A ++ c :: B from rfl, ih []]

theorem replWordAux_runs_sub (w r : List Char) :
    ∀ (l cur : List Char), cur.all isWordChar = true →
      ∀ run ∈ wordRunsAux [] (replWordAux w r cur l),
        (run ∈ wordRunsAux cur l ∧ run.map Char.toLower ≠ w) ∨ run ∈ wordRuns r := by
  intro l
  induction l with
  | nil =>
    intro cur hcur run hrun
    simp only [replWordAux, flushRun] at hrun
    by_cases hm : cur.map Char.toLower = w
    · rw [if_pos hm] at hrun
      exact Or.inr hrun
    · rw [if_neg hm] at hrun
      rw [wordRunsAux_all_word cur [] hcur] at hrun
      simp only [List.nil_append, List.mem_singleton] at hrun
      subst hrun
      exact Or.inl ⟨by simp [wordRunsAux], hm⟩
  | cons c cs ih =>
    intro cur hcur run hrun
    by_cases hw : isWordChar c = true
    · simp only [replWordAux, hw, if_true] at hrun
      have hcur' : (cur ++ [c]).all isWordChar = true := by
        simp [List.all_append, hcur, hw]
      have := ih (cur ++ [c]) hcur' run hrun
      simpa [wordRunsAux, hw] using this
    · simp only [replWordAux, if_neg hw] at hrun
      rw [wordRunsAux_append_nonword c (Bool.eq_false_iff.mpr hw) _ _ []] at hrun
      rw [List.mem_append] at hrun
      rcases hrun with h | h
      · -- run comes from the flushed accumulator
        simp only [flushRun] at h
        by_cases hm : cur.map Char.toLower = w
        · rw [if_pos hm] at h
          exact Or.inr h
        · rw [if_neg hm] at h
          rw [wordRunsAux_all_word cur [] hcur] at h
          simp only [List.nil_append, List.mem_singleton] at h
          subst h
          refine Or.inl ⟨?_, hm⟩
          simp [wordRunsAux, if_neg hw]
      · -- run comes from the recursive suffix
        have := ih [] rfl run h
        rcases this with ⟨hmem, hne⟩ | hr
        · refine Or.inl ⟨?_, hne⟩
          simp only [wordRunsAux, if_neg hw]
          exact List.mem_cons_of_mem cur hmem
        · exact Or.inr hr

theorem replWordAux_noop (w r : List Char) :
    ∀ (l cur : List Char), cur.all isWordChar = true →
      (∀ run ∈ wordRunsAux cur l, run.map Char.toLower ≠ w) →
      replWordAux w r cur l = cur ++ l := by
  intro l
  induction l with
  | nil =>
    intro cur hcur hclean
    have hc : cur.map Char.toLower ≠ w := by
      refine hclean cur ?_
      simp [wordRunsAux]
    simp [replWordAux, flushRun, hc]
  | cons c cs ih =>
    intro cur hcur hclean
    by_cases hw : isWordChar c = true
    · have hcur' : (cur ++ [c]).all isWordChar = true := by
        simp [List.all_append, hcur, hw]
      have hclean' : ∀ run ∈ wordRunsAux (cur ++ [c]) cs, run.map Char.toLower ≠ w := by
        intro run hrun
        refine hclean run ?_
        simpa [wordRunsAux, hw] using hrun
      simp only [replWordAux, hw, if_true]
      rw [ih (cur ++ [c]) hcur' hclean']
      simp
    · have hc : cur.map Char.toLower ≠ w := by
        refine hclean cur ?_
        simp [wordRunsAux, if_neg hw]
      have hclean' : ∀ run ∈ wordRunsAux [] cs, run.map Char.toLower ≠ w := by
        intro run hrun
        refine hclean run ?_
        simp only [wordRunsAux, if_neg hw]
        exact List.mem_cons_of_mem cur hrun
      simp only [replWordAux, if_neg hw, flushRun, if_neg hc]
      rw [ih [] rfl hclean']
      simp

theorem cleanFor_pass_self (w r : List Char) (hr : CleanFor w r) (l : List Char) :
    CleanFor w (replWordAux w r [] l) := by
  intro run hrun
  rcases replWordAux_runs_sub w r l [] rfl run hrun with ⟨-, hne⟩ | hmem
  · exact hne
  · exact hr run hmem

theorem cleanFor_pass_other (w' w r l : List Char) (hl : CleanFor w' l)
    (hr : CleanFor w' r) : CleanFor w' (replWordAux w r [] l) := by
  intro run hrun
  rcases replWordAux_runs_sub w r l [] rfl run hrun with ⟨hmem, -⟩ | hmem
  · exact hl run hmem
  · exact hr run hmem

theorem chain_preserves (w' : List Char) :
    ∀ (ps : List (String × String)) (l : List Char),
      CleanFor w' l → (∀ q ∈ ps, CleanFor w' q.2.toList) →
      CleanFor w'
        (ps.foldl (fun acc pq => replWordAux pq.1.toList pq.2.toList [] acc) l) := by
  intro ps
  induction ps with
  | nil => intro l hl _; exact hl
  | cons p ps ih =>
    intro l hl hall
    rw [List.foldl_cons]
    exact ih _ (cleanFor_pass_other w' _ _ _ hl (hall p (by simp)))
      (fun q hq => hall q (List.mem_cons_of_mem p hq))

theorem chain_clean :
    ∀ (ps : List (String × String)) (l : List Char),
      (∀ p ∈ ps, ∀ q ∈ ps, CleanFor p.1.toList q.2.toList) →
      ∀ p ∈ ps, CleanFor p.1.toList
        (ps.foldl (fun acc pq => replWordAux pq.1.toList pq.2.toList [] acc) l) := by
  intro ps
  induction ps with
  | nil => intro l _ p hp; exact absurd hp (List.not_mem_nil p)
  | cons a ps ih =>
    intro l hcl p hp
    rw [List.foldl_cons]
    rcases List.mem_cons.mp hp with rfl | hp'
    · refine chain_preserves _ ps _ ?_ ?_
      · exact cleanFor_pass_self _ _ (hcl p (by simp) p (by simp)) l
      · intro q hq
        exact hcl p (by simp) q (List.mem_cons_of_mem _ hq)
    · exact ih _ (fun p₁ h₁ q₁ hq₁ =>
        hcl p₁ (List.mem_cons_of_mem a h₁) q₁ (List.mem_cons_of_mem a hq₁)) p hp'

theorem chain_noop :
    ∀ (ps : List (String × String)) (l : List Char),
      (∀ p ∈ ps, CleanFor p.1.toList l) →
      ps.foldl (fun acc pq => replWordAux pq.1.toList pq.2.toList [] acc) l = l := by
  intro ps
  induction ps with
  | nil => intro l _; rfl
  | cons a ps ih =>
    intro l hall
    rw [List.foldl_cons]
    have hpass : replWordAux a.1.toList a.2.toList [] l = l := by
      have := replWordAux_noop a.1.toList a.2.toList l [] rfl (hall a (by simp))
      simpa using this
    rw [hpass]
    exact ih l (fun p hp => hall p (List.mem_cons_of_mem a hp))

theorem apply_as_chain :
    ∀ (ps : List (String × String)) (s : String),
      ps.foldl (fun acc p => replaceWholeWord p.1 p.2 acc) s
        = ⟨ps.foldl (fun acc pq => replWordAux pq.1.toList pq.2.toList [] acc) s.toList⟩ := by
  intro ps
  induction ps with
  | nil => intro s; rfl
  | cons p ps ih =>
    intro s
    rw [List.foldl_cons, List.foldl_cons, ih]
    rfl

set_option maxHeartbeats 1600000 in
theorem moralApply_idem (s : String) :
    MoralValuesFilter.apply (MoralValuesFilter.apply s) = MoralValuesFilter.apply s := by
  have hclean : ∀ p ∈ MoralValuesFilter.replacements,
      ∀ q ∈ MoralValuesFilter.replacements, CleanFor p.1.toList q.2.toList := by decide
  unfold MoralValuesFilter.apply
  rw [apply_as_chain MoralValuesFilter.replacements s,
      apply_as_chain MoralValuesFilter.replacements]
  congr 1
  exact chain_noop _ _ (fun p hp => chain_clean _ _ hclean p hp)

theorem flatten_count_bang :
    ∀ l : List Char,
      ((l.map (fun c => if c = '!' then ['!', '!', '!'] else [c])).flatten).count '!'
        = 3 * l.count '!' := by
  intro l
  induction l with
  | nil => simp
  | cons c l ih =>
    by_cases hc : c = '!'
    · subst hc
      simp [List.count_cons, ih, Nat.mul_add]
    · simp [hc, List.count_cons, ih]

/-- Claim C6.  `MoralValuesFilter.apply` and `EducationalFilter.apply` are idempotent,
with the educational one the identity; `FunOnlyFilter.apply` sends the empty string to
itself and otherwise replaces every literal `!` with `!!!` (characterised by its action
on a leading character and by tripling the `!` count), hence `apply "Wow!" = "Wow!!!"`,
and applying it to its own output multiplies the exclamation marks by three again, so it
is not idempotent. -/
theorem claim_C6 :
    (∀ s : String, MoralValuesFilter.apply (MoralValuesFilter.apply s)
        = MoralValuesFilter.apply s)
  ∧ (∀ s : String, EducationalFilter.apply s = s)
  ∧ (∀ s : String, EducationalFilter.apply (EducationalFilter.apply s)
        = EducationalFilter.apply s)
  ∧ FunOnlyFilter.apply "" = ""
  ∧ (∀ (c : Char) (l : List Char),
       FunOnlyFilter.apply ⟨c :: l⟩
         = (if c = '!' then "!!!" else ⟨[c]⟩) ++ FunOnlyFilter.apply ⟨l⟩)
  ∧ (∀ s : String, (FunOnlyFilter.apply s).toList.count '!' = 3 * s.toList.count '!')
  ∧ FunOnlyFilter.apply "Wow!" = "Wow!!!"
  ∧ FunOnlyFilter.apply (FunOnlyFilter.apply "Wow!") ≠ FunOnlyFilter.apply "Wow!" := by
  refine ⟨moralApply_idem, fun s => rfl, fun s => rfl, rfl, ?_, ?_, by decide, by decide⟩
  · intro c l
    by_cases hc : c = '!'
    · subst hc
      rfl
    · apply String.ext
      simp [FunOnlyFilter.apply, hc, String.data_append]
  · intro s
    exact flatten_count_bang s.toList
